import Mathlib

/-!
Verification of the football information service: shallow embedding of the
resolvers, the TTL memory cache, the MongoDB client layer, the singleton
connection pool and the orchestrating service, with theorems settling the
specified behavioural claims.

Conventions of the embedding:
* Python `str` is Lean `String`; Python `int` is Lean `Int` (ids, limits,
  TTLs); timestamps and time differences (`datetime.now()`,
  `timedelta.total_seconds()`) are rationals.
* A Python method that may mutate its object is state-in/state-out; a method
  that raises is `Except`; `None`-returning lookups are `Option`.
* External effects (the MongoDB cursor execution together with document
  mapping) are oracle function parameters.
-/

/-- Python `str.lower()`: lowercase every character. -/
def pyLower (s : String) : String := ⟨s.data.map Char.toLower⟩

/-- Python `str.strip()`: drop whitespace from both ends. -/
def pyStrip (s : String) : String :=
  ⟨((s.data.dropWhile Char.isWhitespace).reverse.dropWhile Char.isWhitespace).reverse⟩

/-- `charsStartWith n h` is true when `n` is an initial segment of `h`. -/
def charsStartWith : List Char → List Char → Bool
  | [], _ => true
  | _ :: _, [] => false
  | a :: as, b :: bs => a == b && charsStartWith as bs

/-- Python `n in h` on decoded character lists: `n` occurs contiguously in `h`. -/
def charsInfixOf (n : List Char) : List Char → Bool
  | [] => charsStartWith n []
  | b :: bs => charsStartWith n (b :: bs) || charsInfixOf n bs

/-- Python `sub in s` for strings. -/
def strIn (sub s : String) : Bool :=
  charsInfixOf sub.data s.data

/-! ## Resolver tables (league_resolver.py / team_resolver.py)

A `LeagueResolver` holds `self.leagues : Dict[str, int]` and
`self.league_aliases : Dict[str, List[str]]`, both keyed by the canonical
name and filled in file order (Python dicts preserve insertion order); the
two dicts are built together, so the table is a list of entries in load
order. A `TeamResolver` holds `self.teams : Dict[str, int]`. -/

structure LeagueEntry where
  name : String
  id : Int
  aliases : List String
deriving DecidableEq

structure TeamEntry where
  name : String
  id : Int
deriving DecidableEq

/-- First `for` loop of `LeagueResolver.resolve`: exact (case-insensitive)
canonical-name match, first entry wins. -/
def leagueFindName : List LeagueEntry → String → Option Int
  | [], _ => none
  | e :: rest, q =>
    if (pyLower e.name) == q then some e.id else leagueFindName rest q

/-- Second `for` loop of `LeagueResolver.resolve`: exact alias match. -/
def leagueFindAliasExact : List LeagueEntry → String → Option Int
  | [], _ => none
  | e :: rest, q =>
    if e.aliases.any (fun a => (pyLower a) == q) then some e.id
    else leagueFindAliasExact rest q

/-- Third `for` loop of `LeagueResolver.resolve`: the normalized query is a
substring of an alias. -/
def leagueFindAliasSub : List LeagueEntry → String → Option Int
  | [], _ => none
  | e :: rest, q =>
    if e.aliases.any (fun a => strIn q (pyLower a)) then some e.id
    else leagueFindAliasSub rest q

/-- `LeagueResolver.resolve`: normalize the query with `lower().strip()`,
then run the three loops in order, returning the first hit. -/
def LeagueResolver.resolve (leagues : List LeagueEntry) (query : String) : Option Int :=
  let q := pyStrip (pyLower query)
  match leagueFindName leagues q with
  | some i => some i
  | none =>
    match leagueFindAliasExact leagues q with
    | some i => some i
    | none => leagueFindAliasSub leagues q

/-- First `for` loop of `TeamResolver.resolve`: exact canonical-name match. -/
def teamFindName : List TeamEntry → String → Option Int
  | [], _ => none
  | e :: rest, q =>
    if (pyLower e.name) == q then some e.id else teamFindName rest q

/-- Second `for` loop of `TeamResolver.resolve`: the normalized query is a
substring of the canonical name. -/
def teamFindSub : List TeamEntry → String → Option Int
  | [], _ => none
  | e :: rest, q =>
    if strIn q (pyLower e.name) then some e.id else teamFindSub rest q

/-- `TeamResolver.resolve`: the method accepts a `league_id` keyword but
discards it (`_ = league_id` in the source) before the two scan loops.
State-in/state-out: the table is returned unchanged. -/
def TeamResolver.resolve (teams : List TeamEntry) (query : String)
    (league_id : Option Int) : Option Int × List TeamEntry :=
  let _ := league_id
  let q := pyStrip (pyLower query)
  match teamFindName teams q with
  | some i => (some i, teams)
  | none => (teamFindSub teams q, teams)

/-! Spec-side resolution policy (for the refinement statement of C1): a
numbered rule predicate per priority level and a first-match-wins scan,
rule level first, load order second. -/

/-- Rule `k` of the spec's resolution policy for leagues (0 = exact name,
1 = exact alias, 2 = substring of an alias), on the normalized query. -/
def leagueRule : Nat → LeagueEntry → String → Bool
  | 0, e, q => (pyLower e.name) == q
  | 1, e, q => e.aliases.any (fun a => (pyLower a) == q)
  | _, e, q => e.aliases.any (fun a => strIn q (pyLower a))

/-- Rule `k` of the spec's resolution policy for teams (0 = exact name,
1 = substring of the canonical name). -/
def teamRule : Nat → TeamEntry → String → Bool
  | 0, e, q => (pyLower e.name) == q
  | _, e, q => strIn q (pyLower e.name)

/-- Spec-worded league resolution: first entry matching rule 0 anywhere in
the table, otherwise first matching rule 1, otherwise first matching rule 2. -/
def LeagueResolver.resolveSpec (leagues : List LeagueEntry) (query : String) : Option Int :=
  let q := pyStrip (pyLower query)
  (((leagues.find? fun e => leagueRule 0 e q).orElse
      (fun _ => leagues.find? fun e => leagueRule 1 e q)).orElse
      (fun _ => leagues.find? fun e => leagueRule 2 e q)).map (fun e => e.id)

/-- Spec-worded team resolution: rule 0 over the whole table, then rule 1. -/
def TeamResolver.resolveSpec (teams : List TeamEntry) (query : String) : Option Int :=
  let q := pyStrip (pyLower query)
  ((teams.find? fun e => teamRule 0 e q).orElse
      (fun _ => teams.find? fun e => teamRule 1 e q)).map (fun e => e.id)

lemma leagueFindName_eq_find (leagues : List LeagueEntry) (q : String) :
    leagueFindName leagues q
      = (leagues.find? fun e => leagueRule 0 e q).map (fun e => e.id) := by
  have hr : (fun e => leagueRule 0 e q) = (fun e : LeagueEntry => (pyLower e.name) == q) :=
    funext fun _ => rfl
  rw [hr]
  induction leagues with
  | nil => rfl
  | cons e rest ih =>
    simp only [leagueFindName, List.find?]
    by_cases h : ((pyLower e.name) == q) = true
    · simp [h]
    · simp only [Bool.not_eq_true] at h
      simp [h, ih]

lemma leagueFindAliasExact_eq_find (leagues : List LeagueEntry) (q : String) :
    leagueFindAliasExact leagues q
      = (leagues.find? fun e => leagueRule 1 e q).map (fun e => e.id) := by
  have hr : (fun e => leagueRule 1 e q)
      = (fun e : LeagueEntry => e.aliases.any fun a => (pyLower a) == q) :=
    funext fun _ => rfl
  rw [hr]
  induction leagues with
  | nil => rfl
  | cons e rest ih =>
    simp only [leagueFindAliasExact, List.find?]
    by_cases h : (e.aliases.any fun a => (pyLower a) == q) = true
    · simp [h]
    · simp only [Bool.not_eq_true] at h
      simp [h, ih]

lemma leagueFindAliasSub_eq_find (leagues : List LeagueEntry) (q : String) :
    leagueFindAliasSub leagues q
      = (leagues.find? fun e => leagueRule 2 e q).map (fun e => e.id) := by
  have hr : (fun e => leagueRule 2 e q)
      = (fun e : LeagueEntry => e.aliases.any fun a => strIn q (pyLower a)) :=
    funext fun _ => rfl
  rw [hr]
  induction leagues with
  | nil => rfl
  | cons e rest ih =>
    simp only [leagueFindAliasSub, List.find?]
    by_cases h : (e.aliases.any fun a => strIn q (pyLower a)) = true
    · simp [h]
    · simp only [Bool.not_eq_true] at h
      simp [h, ih]

lemma teamFindName_eq_find (teams : List TeamEntry) (q : String) :
    teamFindName teams q
      = (teams.find? fun e => teamRule 0 e q).map (fun e => e.id) := by
  have hr : (fun e => teamRule 0 e q) = (fun e : TeamEntry => (pyLower e.name) == q) :=
    funext fun _ => rfl
  rw [hr]
  induction teams with
  | nil => rfl
  | cons e rest ih =>
    simp only [teamFindName, List.find?]
    by_cases h : ((pyLower e.name) == q) = true
    · simp [h]
    · simp only [Bool.not_eq_true] at h
      simp [h, ih]

lemma teamFindSub_eq_find (teams : List TeamEntry) (q : String) :
    teamFindSub teams q
      = (teams.find? fun e => teamRule 1 e q).map (fun e => e.id) := by
  have hr : (fun e => teamRule 1 e q) = (fun e : TeamEntry => strIn q (pyLower e.name)) :=
    funext fun _ => rfl
  rw [hr]
  induction teams with
  | nil => rfl
  | cons e rest ih =>
    simp only [teamFindSub, List.find?]
    by_cases h : (strIn q (pyLower e.name)) = true
    · simp [h]
    · simp only [Bool.not_eq_true] at h
      simp [h, ih]

/-- Claim C1: both resolvers apply their matching rules in a fixed priority
order with first-match-wins over load order — a rule-k match on any entry
beats a rule-(k+1) match on any other entry, and within one rule the
earliest entry wins; in particular a league whose alias equals the query
beats a later league whose alias merely contains it. -/
theorem C1_resolution_priority :
    (∀ (leagues : List LeagueEntry) (query : String),
        LeagueResolver.resolve leagues query = LeagueResolver.resolveSpec leagues query)
    ∧ (∀ (teams : List TeamEntry) (query : String) (league_id : Option Int),
        (TeamResolver.resolve teams query league_id).1 = TeamResolver.resolveSpec teams query)
    ∧ LeagueResolver.resolve
        [⟨"Alpha League", 11, ["x-short"]⟩, ⟨"Beta League", 22, ["the-x-short-cup"]⟩]
        "x-short" = some 11 := by
  refine ⟨?_, ?_, by decide⟩
  · intro leagues query
    simp only [LeagueResolver.resolve, LeagueResolver.resolveSpec,
      leagueFindName_eq_find, leagueFindAliasExact_eq_find, leagueFindAliasSub_eq_find]
    rcases (leagues.find? fun e => leagueRule 0 e (pyStrip (pyLower query))) with _ | e₀
    · rcases (leagues.find? fun e => leagueRule 1 e (pyStrip (pyLower query))) with _ | e₁
      · simp [Option.orElse]
      · simp [Option.orElse]
    · simp [Option.orElse]
  · intro teams query league_id
    simp only [TeamResolver.resolve, TeamResolver.resolveSpec, teamFindName_eq_find,
      teamFindSub_eq_find]
    rcases (teams.find? fun e => teamRule 0 e (pyStrip (pyLower query))) with _ | e₀
    · simp [Option.orElse]
    · simp [Option.orElse]

/-- Claim C9: `TeamResolver.resolve` is noninterferent in its `league_id`
argument — for any query and any two values of the parameter the result and
the post-state of the resolver coincide. -/
theorem C9_league_id_noninterference :
    ∀ (teams : List TeamEntry) (query : String) (l₁ l₂ : Option Int),
      TeamResolver.resolve teams query l₁ = TeamResolver.resolve teams query l₂ := by
  intro teams query l₁ l₂
  rfl

/-! ## TTL memory cache (memory_cache.py, models.py `CacheEntry`)

Timestamps are rationals; `CacheEntry.is_expired` compares the elapsed
seconds against the integer TTL with a strict `>`. The entry map is the
Python dict `self._cache` as an association list in insertion order, the
counters are `self._stats`. -/

structure CacheEntry (α : Type) where
  data : α
  cached_at : ℚ
  ttl : Int
deriving DecidableEq

/-- `CacheEntry.is_expired`: `(now - cached_at).total_seconds() > ttl`. -/
def CacheEntry.is_expired (e : CacheEntry α) (now : ℚ) : Bool :=
  now - e.cached_at > (e.ttl : ℚ)

structure MemoryCache (α : Type) where
  cache : List (String × CacheEntry α)
  hits : Nat
  misses : Nat
  evictions : Nat
deriving DecidableEq

/-- The empty cache built by `MemoryCache.__init__`. -/
def MemoryCache.init : MemoryCache α := ⟨[], 0, 0, 0⟩

/-- Python dict assignment `d[key] = v`: replace in place if the key exists,
otherwise append. -/
def dictInsert (key : String) (v : CacheEntry α) :
    List (String × CacheEntry α) → List (String × CacheEntry α)
  | [] => [(key, v)]
  | (k, w) :: rest =>
    if k == key then (key, v) :: rest else (k, w) :: dictInsert key v rest

/-- `MemoryCache.get`: absent key is a miss; an expired entry is deleted,
counted as a miss and an eviction; otherwise a hit returning the payload. -/
def MemoryCache.get (c : MemoryCache α) (now : ℚ) (key : String) :
    Option α × MemoryCache α :=
  match c.cache.lookup key with
  | none => (none, { c with misses := c.misses + 1 })
  | some e =>
    if e.is_expired now then
      (none, { c with cache := c.cache.eraseP (fun p => p.1 == key),
                      misses := c.misses + 1, evictions := c.evictions + 1 })
    else (some e.data, { c with hits := c.hits + 1 })

/-- `MemoryCache.set`: unconditionally store a fresh entry stamped `now`. -/
def MemoryCache.set (c : MemoryCache α) (now : ℚ) (key : String) (value : α)
    (ttl : Int) : MemoryCache α :=
  { c with cache := dictInsert key ⟨value, now, ttl⟩ c.cache }

/-- `MemoryCache.delete`: remove the key if present, report whether it was. -/
def MemoryCache.delete (c : MemoryCache α) (key : String) : Bool × MemoryCache α :=
  match c.cache.lookup key with
  | some _ => (true, { c with cache := c.cache.eraseP (fun p => p.1 == key) })
  | none => (false, c)

/-- `MemoryCache.clear`: `self._cache.clear()` first, then
`self._stats["evictions"] += len(self._cache)` — the length of the map that
was just emptied. -/
def MemoryCache.clear (c : MemoryCache α) : MemoryCache α :=
  let cleared : List (String × CacheEntry α) := []
  { c with cache := cleared, evictions := c.evictions + cleared.length }

/-- `MemoryCache.cleanup_expired`: sweep all currently expired entries. -/
def MemoryCache.cleanupExpired (c : MemoryCache α) (now : ℚ) : Nat × MemoryCache α :=
  let expired := c.cache.filter (fun p => p.2.is_expired now)
  ( expired.length,
    { c with cache := c.cache.filter (fun p => !p.2.is_expired now),
             evictions := c.evictions + expired.length } )

/-- Round to the nearest integer, ties to the even integer — the rounding
used both by binary64 arithmetic (on the scaled significand) and by the
decimal conversion inside CPython's `round`. -/
def roundHalfEven (x : ℚ) : Int :=
  let n := ⌊x⌋
  let frac := x - n
  if frac < 1 / 2 then n
  else if 1 / 2 < frac then n + 1
  else if n % 2 = 0 then n else n + 1

/-- The decimal step of CPython's `round(x, 2)` on a float `x` (David Gay's
`dtoa`, mode 3): the nearest multiple of 1/100 of the float's exact value,
ties to even. -/
def roundTo2 (x : ℚ) : ℚ := (roundHalfEven (x * 100) : ℚ) / 100

/-- Floor of the base-2 logarithm of a positive rational (the binary64
exponent of `q`). -/
def ilog2 (q : ℚ) : Int :=
  let e0 : Int := (Nat.log2 q.num.toNat : Int) - (Nat.log2 q.den : Int)
  if (2 : ℚ) ^ e0 ≤ q then e0 else e0 - 1

/-- Correctly round a positive rational to a 53-bit significand: the
nearest multiple of `2^(ilog2 q - 52)`, ties to even. -/
def roundFloat64Pos (q : ℚ) : ℚ :=
  (roundHalfEven (q / 2 ^ (ilog2 q - 52)) : ℚ) * 2 ^ (ilog2 q - 52)

/-- The exact value of the binary64 double nearest to `q` (round to
nearest, ties to even significand); overflow and subnormal inputs, which
no reachable hit rate produces, are outside the modelled range. -/
def roundFloat64 (q : ℚ) : ℚ :=
  if q = 0 then 0
  else if 0 < q then roundFloat64Pos q
  else -(roundFloat64Pos (-q))

/-- CPython's true division of two machine-independent ints (`hits /
total_requests`): the correctly rounded binary64 value of the exact
quotient. -/
def floatDivInt (a b : Nat) : ℚ := roundFloat64 ((a : ℚ) / (b : ℚ))

/-- CPython's `round(x, 2)` on a float `x`: the `dtoa` decimal rounding of
the float's exact value, converted back to the nearest binary64. -/
def pyRoundFloat2 (x : ℚ) : ℚ := roundFloat64 (roundTo2 x)

structure CacheStats where
  size : Nat
  hits : Nat
  misses : Nat
  evictions : Nat
  hit_rate : ℚ
  total_requests : Nat
deriving DecidableEq

/-- `MemoryCache.get_stats`: totals and the rounded hit rate. The float
expression `hits / total_requests` is the correctly rounded binary64
quotient of the two ints, and `round(hit_rate, 2)` is the float round. -/
def MemoryCache.get_stats (c : MemoryCache α) : CacheStats :=
  let total_requests := c.hits + c.misses
  let hit_rate : ℚ :=
    if total_requests > 0 then floatDivInt c.hits total_requests else 0
  { size := c.cache.length, hits := c.hits, misses := c.misses,
    evictions := c.evictions, hit_rate := pyRoundFloat2 hit_rate,
    total_requests := total_requests }

/-- Claim C10: `clear()` empties the map and changes no counter — the
eviction bump adds the length of the already-cleared map, which is zero. -/
theorem C10_clear_frame :
    ∀ (c : MemoryCache α),
      (MemoryCache.clear c).cache = []
      ∧ (MemoryCache.clear c).hits = c.hits
      ∧ (MemoryCache.clear c).misses = c.misses
      ∧ (MemoryCache.clear c).evictions = c.evictions
      ∧ (MemoryCache.clear c).get_stats
          = { size := 0, hits := c.hits, misses := c.misses,
              evictions := c.evictions,
              hit_rate := (c.get_stats).hit_rate,
              total_requests := c.hits + c.misses } := by
  intro c
  refine ⟨rfl, rfl, rfl, rfl, ?_⟩
  simp [MemoryCache.clear, MemoryCache.get_stats]

lemma lookup_none_of_not_mem_keys {β : Type} (key : String)
    (l : List (String × β)) (h : key ∉ l.map Prod.fst) : l.lookup key = none := by
  induction l with
  | nil => rfl
  | cons p rest ih =>
    simp only [List.map_cons, List.mem_cons] at h
    push_neg at h
    obtain ⟨h1, h2⟩ := h
    have hne : (key == p.1) = false := by
      simp only [beq_eq_false_iff_ne]
      exact h1
    simp [List.lookup, hne, ih h2]

lemma lookup_eraseP_self {β : Type} (key : String)
    (l : List (String × β)) (h : (l.map Prod.fst).Nodup) :
    (l.eraseP (fun p => p.1 == key)).lookup key = none := by
  induction l with
  | nil => rfl
  | cons p rest ih =>
    simp only [List.map_cons, List.nodup_cons] at h
    obtain ⟨hp, hrest⟩ := h
    by_cases hk : p.1 = key
    · have hb : (p.1 == key) = true := by simp [hk]
      simp only [List.eraseP_cons, hb, cond_true]
      subst hk
      exact lookup_none_of_not_mem_keys _ rest hp
    · have hb : (p.1 == key) = false := by simp [hk]
      have hb' : (key == p.1) = false := by
        simp only [beq_eq_false_iff_ne]
        exact fun hkk => hk hkk.symm
      simp [List.eraseP_cons, hb, List.lookup, hb', ih hrest]

lemma length_eraseP_lookup {β : Type} (key : String)
    (l : List (String × β)) (e : β) (h : l.lookup key = some e) :
    (l.eraseP (fun p => p.1 == key)).length + 1 = l.length := by
  induction l with
  | nil => simp [List.lookup] at h
  | cons p rest ih =>
    by_cases hk : p.1 = key
    · have hb : (p.1 == key) = true := by simp [hk]
      simp [List.eraseP_cons, hb]
    · have hb : (p.1 == key) = false := by simp [hk]
      have hb' : (key == p.1) = false := by
        simp only [beq_eq_false_iff_ne]
        exact fun hkk => hk hkk.symm
      simp only [List.lookup, hb'] at h
      simp only [List.eraseP_cons, hb, cond_false, List.length_cons]
      rw [ih h]

/-- Claim C2: `get` misses exactly when the key is absent or the stored
entry's age strictly exceeds its TTL; an entry whose age equals its TTL is
a hit; an expired entry is deleted on the discovering access, so the key no
longer resolves and `stats().size` drops by one. -/
theorem C2_get_miss_iff (c : MemoryCache α) (now : ℚ) (key : String)
    (hND : (c.cache.map Prod.fst).Nodup) :
    ((c.get now key).1 = none ↔
      c.cache.lookup key = none
      ∨ ∃ e, c.cache.lookup key = some e ∧ now - e.cached_at > (e.ttl : ℚ))
    ∧ (∀ e, c.cache.lookup key = some e → now - e.cached_at = (e.ttl : ℚ) →
        (c.get now key).1 = some e.data)
    ∧ (∀ e, c.cache.lookup key = some e → now - e.cached_at > (e.ttl : ℚ) →
        ((c.get now key).2.cache.lookup key = none
          ∧ ((c.get now key).2.get_stats).size + 1 = (c.get_stats).size)) := by
  cases hl : c.cache.lookup key with
  | none =>
    refine ⟨by simp [MemoryCache.get, hl], ?_, ?_⟩
    · intro e he
      exact absurd he (by simp)
    · intro e he
      exact absurd he (by simp)
  | some e =>
    cases hexp : e.is_expired now with
    | false =>
      have hlt : ¬ now - e.cached_at > (e.ttl : ℚ) := by
        simpa [CacheEntry.is_expired] using hexp
      refine ⟨⟨fun h => ?_, fun h => ?_⟩, ?_, ?_⟩
      · simp [MemoryCache.get, hl, hexp] at h
      · rcases h with h | ⟨e', he', hgt⟩
        · exact absurd h (by simp)
        · injection he' with hee
          subst hee
          exact absurd hgt hlt
      · intro e' he' _
        injection he' with hee
        subst hee
        simp [MemoryCache.get, hl, hexp]
      · intro e' he' hgt
        injection he' with hee
        subst hee
        exact absurd hgt hlt
    | true =>
      have hgt : now - e.cached_at > (e.ttl : ℚ) := by
        simpa [CacheEntry.is_expired] using hexp
      refine ⟨⟨fun _ => Or.inr ⟨e, rfl, hgt⟩, fun _ => ?_⟩, ?_, ?_⟩
      · simp [MemoryCache.get, hl, hexp]
      · intro e' he' heq
        injection he' with hee
        subst hee
        rw [heq] at hgt
        exact absurd hgt (lt_irrefl _)
      · intro e' he' _
        injection he' with hee
        subst hee
        constructor
        · simp only [MemoryCache.get, hl, hexp, if_true]
          exact lookup_eraseP_self key c.cache hND
        · simp only [MemoryCache.get, hl, hexp, if_true, MemoryCache.get_stats]
          exact length_eraseP_lookup key c.cache e hl

/-- Witness for C2: a one-entry cache whose entry (TTL 10, created at 0) is
read at time 11 — the access misses, and the key is gone afterwards. -/
theorem C2_witness :
    ((MemoryCache.mk [("k", (⟨3, 0, 10⟩ : CacheEntry Nat))] 0 0 0).get 11 "k").1 = none
    ∧ ((MemoryCache.mk [("k", (⟨3, 0, 10⟩ : CacheEntry Nat))] 0 0 0).get 11 "k").2.cache.lookup "k"
        = none := by
  have h := C2_get_miss_iff (MemoryCache.mk [("k", (⟨3, 0, 10⟩ : CacheEntry Nat))] 0 0 0)
    11 "k" (by decide)
  exact ⟨h.1.mpr (Or.inr ⟨⟨3, 0, 10⟩, rfl, by norm_num⟩),
    (h.2.2 ⟨3, 0, 10⟩ rfl (by norm_num)).1⟩

lemma ilog2_spec (q : ℚ) (hq : 0 < q) :
    (2 : ℚ) ^ ilog2 q ≤ q ∧ q < (2 : ℚ) ^ (ilog2 q + 1) := by
  have hnum : (0 : Int) < q.num := Rat.num_pos.mpr hq
  have hden : (0 : Nat) < q.den := q.pos
  set a : Nat := q.num.toNat with ha
  set b : Nat := q.den with hb
  have ha0 : a ≠ 0 := by
    simp only [ha]
    omega
  have hb0 : b ≠ 0 := by omega
  have hqa : ((a : ℚ)) = (q.num : ℚ) := by
    simp only [ha]
    norm_cast
    omega
  have hq_eq : q = (a : ℚ) / (b : ℚ) := by
    rw [hqa, hb]
    exact (Rat.num_div_den q).symm
  have hbQ : (0 : ℚ) < (b : ℚ) := by positivity
  set la := Nat.log2 a with hla
  set lb := Nat.log2 b with hlb
  have hA1 : ((2 : ℚ)) ^ (la : Int) ≤ (a : ℚ) := by
    rw [zpow_natCast]
    exact_mod_cast Nat.log2_self_le ha0
  have hA2 : (a : ℚ) < (2 : ℚ) ^ ((la : Int) + 1) := by
    have := @Nat.lt_log2_self a
    have h2 : ((2 : ℚ)) ^ ((la : Int) + 1) = ((2 ^ (la + 1) : Nat) : ℚ) := by
      push_cast
      rw [zpow_add₀ (by norm_num : (2:ℚ) ≠ 0), zpow_natCast]
      ring
    rw [h2]
    exact_mod_cast this
  have hB1 : ((2 : ℚ)) ^ (lb : Int) ≤ (b : ℚ) := by
    rw [zpow_natCast]
    exact_mod_cast Nat.log2_self_le hb0
  have hB2 : (b : ℚ) < (2 : ℚ) ^ ((lb : Int) + 1) := by
    have := @Nat.lt_log2_self b
    have h2 : ((2 : ℚ)) ^ ((lb : Int) + 1) = ((2 ^ (lb + 1) : Nat) : ℚ) := by
      push_cast
      rw [zpow_add₀ (by norm_num : (2:ℚ) ≠ 0), zpow_natCast]
      ring
    rw [h2]
    exact_mod_cast this
  have h2ne : (2 : ℚ) ≠ 0 := by norm_num
  have h2pos : ∀ (k : Int), (0 : ℚ) < 2 ^ k := fun k => zpow_pos (by norm_num) k
  have hlow : (2 : ℚ) ^ ((la : Int) - lb - 1) < q := by
    rw [hq_eq, lt_div_iff₀ hbQ]
    calc (2 : ℚ) ^ ((la : Int) - lb - 1) * (b : ℚ)
        < (2 : ℚ) ^ ((la : Int) - lb - 1) * (2 : ℚ) ^ ((lb : Int) + 1) := by
          exact mul_lt_mul_of_pos_left hB2 (h2pos _)
      _ = (2 : ℚ) ^ (la : Int) := by
          rw [← zpow_add₀ h2ne]
          ring_nf
      _ ≤ (a : ℚ) := hA1
  have hup : q < (2 : ℚ) ^ ((la : Int) - lb + 1) := by
    rw [hq_eq, div_lt_iff₀ hbQ]
    calc (a : ℚ) < (2 : ℚ) ^ ((la : Int) + 1) := hA2
      _ = (2 : ℚ) ^ ((la : Int) - lb + 1) * (2 : ℚ) ^ (lb : Int) := by
          rw [← zpow_add₀ h2ne]
          ring_nf
      _ ≤ (2 : ℚ) ^ ((la : Int) - lb + 1) * (b : ℚ) := by
          exact mul_le_mul_of_nonneg_left hB1 (le_of_lt (h2pos _))
  unfold ilog2
  rw [← hla, ← hlb]
  by_cases hcase : (2 : ℚ) ^ ((la : Int) - lb) ≤ q
  · rw [if_pos hcase]
    exact ⟨hcase, hup⟩
  · rw [if_neg hcase]
    push_neg at hcase
    have he : (la : Int) - lb - 1 + 1 = (la : Int) - lb := by ring
    exact ⟨le_of_lt hlow, by rw [he]; exact hcase⟩

lemma ilog2_eq_of (q : ℚ) (hq : 0 < q) (e : Int)
    (h1 : (2 : ℚ) ^ e ≤ q) (h2 : q < (2 : ℚ) ^ (e + 1)) : ilog2 q = e := by
  obtain ⟨hl, hu⟩ := ilog2_spec q hq
  by_contra hne
  rcases lt_or_gt_of_ne hne with h | h
  · have : (2 : ℚ) ^ (ilog2 q + 1) ≤ (2 : ℚ) ^ e :=
      zpow_le_zpow_right₀ (by norm_num) (by omega)
    linarith
  · have : (2 : ℚ) ^ (e + 1) ≤ (2 : ℚ) ^ ilog2 q :=
      zpow_le_zpow_right₀ (by norm_num) (by omega)
    linarith

lemma abs_roundHalfEven_sub_le (x : ℚ) : |(roundHalfEven x : ℚ) - x| ≤ 1 / 2 := by
  have hfl : (⌊x⌋ : ℚ) ≤ x := Int.floor_le x
  have hfu : x < ⌊x⌋ + 1 := Int.lt_floor_add_one x
  simp only [roundHalfEven]
  split_ifs with h1 h2 h3
  · rw [abs_of_nonpos (by linarith)]
    linarith
  · push_cast
    rw [abs_of_nonneg (by linarith)]
    linarith
  · rw [abs_of_nonpos (by linarith)]
    linarith
  · push_cast
    rw [abs_of_nonneg (by linarith)]
    linarith

lemma roundHalfEven_nonneg (x : ℚ) (hx : 0 ≤ x) : 0 ≤ roundHalfEven x := by
  have hfl : (0 : Int) ≤ ⌊x⌋ := Int.floor_nonneg.mpr hx
  simp only [roundHalfEven]
  split_ifs <;> omega

lemma roundTo2_nonneg (x : ℚ) (hx : 0 ≤ x) : 0 ≤ roundTo2 x := by
  unfold roundTo2
  have := roundHalfEven_nonneg (x * 100) (by positivity)
  positivity

lemma abs_roundTo2_sub_le (x : ℚ) : |roundTo2 x - x| ≤ 1 / 200 := by
  have h := abs_roundHalfEven_sub_le (x * 100)
  unfold roundTo2
  have hx : (roundHalfEven (x * 100) : ℚ) / 100 - x
      = ((roundHalfEven (x * 100) : ℚ) - x * 100) / 100 := by ring
  rw [hx, abs_div, abs_of_nonneg (by norm_num : (0 : ℚ) ≤ 100)]
  rw [div_le_iff₀ (by norm_num : (0 : ℚ) < 100)]
  linarith

lemma abs_roundFloat64Pos_sub_le (q : ℚ) (hq : 0 < q) :
    |roundFloat64Pos q - q| ≤ q / 2 ^ (52 : Nat) := by
  set e := ilog2 q with he
  have hs : (0 : ℚ) < 2 ^ (e - 52) := zpow_pos (by norm_num) _
  have hsne : ((2 : ℚ) ^ (e - 52)) ≠ 0 := ne_of_gt hs
  have hrw : roundFloat64Pos q - q
      = ((roundHalfEven (q / 2 ^ (e - 52)) : ℚ) - q / 2 ^ (e - 52)) * 2 ^ (e - 52) := by
    unfold roundFloat64Pos
    rw [← he]
    field_simp
  rw [hrw, abs_mul, abs_of_pos hs]
  have h1 : |(roundHalfEven (q / 2 ^ (e - 52)) : ℚ) - q / 2 ^ (e - 52)| ≤ 1 / 2 :=
    abs_roundHalfEven_sub_le _
  have h2 : |(roundHalfEven (q / 2 ^ (e - 52)) : ℚ) - q / 2 ^ (e - 52)| * 2 ^ (e - 52)
      ≤ (1 / 2) * 2 ^ (e - 52) := by
    exact mul_le_mul_of_nonneg_right h1 (le_of_lt hs)
  refine le_trans h2 ?_
  have h3 : (1 / 2 : ℚ) * 2 ^ (e - 52) = 2 ^ e / 2 ^ (53 : Nat) := by
    rw [zpow_sub₀ (by norm_num : (2:ℚ) ≠ 0)]
    rw [show ((52 : Int)) = ((52 : Nat) : Int) from rfl, zpow_natCast]
    norm_num
    ring
  rw [h3]
  have h4 : (2 : ℚ) ^ e ≤ q := (ilog2_spec q hq).1
  have h5 : (2 : ℚ) ^ e / 2 ^ (53 : Nat) ≤ q / 2 ^ (53 : Nat) := by
    gcongr
  have h6 : q / 2 ^ (53 : Nat) ≤ q / 2 ^ (52 : Nat) := by
    gcongr
    all_goals first | exact le_of_lt hq | norm_num
  exact le_trans h5 h6

lemma roundFloat64_nonneg (q : ℚ) (hq : 0 ≤ q) : 0 ≤ roundFloat64 q := by
  unfold roundFloat64
  rcases eq_or_lt_of_le hq with h | h
  · rw [if_pos h.symm]
  · rw [if_neg (ne_of_gt h), if_pos h]
    unfold roundFloat64Pos
    have hs : (0 : ℚ) < 2 ^ (ilog2 q - 52) := zpow_pos (by norm_num) _
    have hr := roundHalfEven_nonneg (q / 2 ^ (ilog2 q - 52)) (by positivity)
    positivity

lemma abs_roundFloat64_sub_le (q : ℚ) (hq : 0 ≤ q) :
    |roundFloat64 q - q| ≤ q / 2 ^ (52 : Nat) := by
  unfold roundFloat64
  rcases eq_or_lt_of_le hq with h | h
  · rw [if_pos h.symm, ← h]
    norm_num
  · rw [if_neg (ne_of_gt h), if_pos h]
    exact abs_roundFloat64Pos_sub_le q h

lemma py_pipeline_close (h t : Nat) (ht : 0 < t) (hle : h ≤ t) :
    |pyRoundFloat2 (floatDivInt h t) - (h : ℚ) / (t : ℚ)| ≤ 1 / 100 := by
  set q : ℚ := (h : ℚ) / (t : ℚ) with hqdef
  have htQ : (0 : ℚ) < (t : ℚ) := by exact_mod_cast ht
  have hq0 : 0 ≤ q := by positivity
  have hq1 : q ≤ 1 := by
    rw [hqdef, div_le_one htQ]
    exact_mod_cast hle
  set f : ℚ := roundFloat64 q with hfdef
  have hf0 : 0 ≤ f := roundFloat64_nonneg q hq0
  have hferr : |f - q| ≤ q / 2 ^ (52 : Nat) := abs_roundFloat64_sub_le q hq0
  have hferr' : |f - q| ≤ 1 / 2 ^ (52 : Nat) := by
    refine le_trans hferr ?_
    gcongr
  set d : ℚ := roundTo2 f with hddef
  have hd0 : 0 ≤ d := roundTo2_nonneg f hf0
  have hderr : |d - f| ≤ 1 / 200 := abs_roundTo2_sub_le f
  have hd2 : d ≤ 2 := by
    have h1 : f ≤ q + 1 / 2 ^ (52 : Nat) := by
      have := abs_le.mp hferr'
      linarith [this.2]
    have h2 : d ≤ f + 1 / 200 := by
      have := abs_le.mp hderr
      linarith [this.2]
    have : (1 : ℚ) / 2 ^ (52 : Nat) ≤ 1 / 2 := by norm_num
    linarith
  have hrerr : |roundFloat64 d - d| ≤ d / 2 ^ (52 : Nat) := abs_roundFloat64_sub_le d hd0
  have hrerr' : |roundFloat64 d - d| ≤ 2 / 2 ^ (52 : Nat) := by
    refine le_trans hrerr ?_
    gcongr
  have hfinal : |roundFloat64 d - q| ≤ 1 / 200 + 1 / 2 ^ (52 : Nat) + 2 / 2 ^ (52 : Nat) := by
    have e1 := abs_le.mp hferr'
    have e2 := abs_le.mp hderr
    have e3 := abs_le.mp hrerr'
    rw [abs_le]
    constructor <;> linarith [e1.1, e1.2, e2.1, e2.2, e3.1, e3.2]
  have hshow : pyRoundFloat2 (floatDivInt h t) = roundFloat64 d := by
    rw [hddef, hfdef, hqdef]
    rfl
  rw [hshow]
  refine le_trans hfinal ?_
  norm_num

lemma ilog2_1_200 : ilog2 (1 / 200 : ℚ) = -8 :=
  ilog2_eq_of _ (by norm_num) _ (by norm_num) (by norm_num)

lemma ilog2_3_200 : ilog2 (3 / 200 : ℚ) = -7 :=
  ilog2_eq_of _ (by norm_num) _ (by norm_num) (by norm_num)

lemma ilog2_1_3 : ilog2 (1 / 3 : ℚ) = -2 :=
  ilog2_eq_of _ (by norm_num) _ (by norm_num) (by norm_num)

lemma ilog2_33_100 : ilog2 (33 / 100 : ℚ) = -2 :=
  ilog2_eq_of _ (by norm_num) _ (by norm_num) (by norm_num)

lemma floatDiv_1_200_eq : floatDivInt 1 200 = 5764607523034235 / 2 ^ 60 := by
  unfold floatDivInt roundFloat64
  have hcast : ((1 : Nat) : ℚ) / ((200 : Nat) : ℚ) = 1 / 200 := by norm_num
  rw [hcast, if_neg (by norm_num), if_pos (by norm_num)]
  unfold roundFloat64Pos
  rw [ilog2_1_200]
  norm_num [roundHalfEven]

lemma floatDiv_3_200_eq : floatDivInt 3 200 = 8646911284551352 / 2 ^ 59 := by
  unfold floatDivInt roundFloat64
  have hcast : ((3 : Nat) : ℚ) / ((200 : Nat) : ℚ) = 3 / 200 := by norm_num
  rw [hcast, if_neg (by norm_num), if_pos (by norm_num)]
  unfold roundFloat64Pos
  rw [ilog2_3_200]
  norm_num [roundHalfEven]

lemma floatDiv_1_3_eq : floatDivInt 1 3 = 6004799503160661 / 2 ^ 54 := by
  unfold floatDivInt roundFloat64
  have hcast : ((1 : Nat) : ℚ) / ((3 : Nat) : ℚ) = 1 / 3 := by norm_num
  rw [hcast, if_neg (by norm_num), if_pos (by norm_num)]
  unfold roundFloat64Pos
  rw [ilog2_1_3]
  norm_num [roundHalfEven]

lemma pyRound2_of_third : pyRoundFloat2 (floatDivInt 1 3) = 5944751508129055 / 2 ^ 54 := by
  rw [floatDiv_1_3_eq]
  unfold pyRoundFloat2
  have h1 : roundTo2 (6004799503160661 / 2 ^ 54 : ℚ) = 33 / 100 := by
    norm_num [roundTo2, roundHalfEven]
  rw [h1]
  unfold roundFloat64
  rw [if_neg (by norm_num), if_pos (by norm_num)]
  unfold roundFloat64Pos
  rw [ilog2_33_100]
  norm_num [roundHalfEven]

/-- Counterexample to C7: from a fresh cache, one `set`, one hit and two
misses leave `hits = 1`, `total_requests = 3`, but the reported `hit_rate`
is the float `round(1/3, 2)` (the binary64 double nearest 0.33), not the
exact quotient `1/3`. -/
theorem C7_counterexample :
    (((((MemoryCache.init (α := Nat)).set 0 "a" 7 100).get 1 "a").2.get 1 "b").2.get 1 "c").2.get_stats.hit_rate
      ≠ ((((((MemoryCache.init (α := Nat)).set 0 "a" 7 100).get 1 "a").2.get 1 "b").2.get 1 "c").2.hits : ℚ)
        / (((((((MemoryCache.init (α := Nat)).set 0 "a" 7 100).get 1 "a").2.get 1 "b").2.get 1 "c").2.get_stats.total_requests : ℚ)) := by
  have hexp : (⟨7, 0, 100⟩ : CacheEntry Nat).is_expired 1 = false := by
    simp only [CacheEntry.is_expired]
    rw [decide_eq_false_iff_not]
    norm_num
  have hba : ("b" == "a") = false := by decide
  have hca : ("c" == "a") = false := by decide
  have h1 : (MemoryCache.init (α := Nat)).set 0 "a" 7 100
      = ⟨[("a", ⟨7, 0, 100⟩)], 0, 0, 0⟩ := rfl
  have h2 : (⟨[("a", ⟨7, 0, 100⟩)], 0, 0, 0⟩ : MemoryCache Nat).get 1 "a"
      = (some 7, ⟨[("a", ⟨7, 0, 100⟩)], 1, 0, 0⟩) := by
    simp [MemoryCache.get, List.lookup, hexp]
  have h3 : (⟨[("a", ⟨7, 0, 100⟩)], 1, 0, 0⟩ : MemoryCache Nat).get 1 "b"
      = (none, ⟨[("a", ⟨7, 0, 100⟩)], 1, 1, 0⟩) := by
    simp [MemoryCache.get, List.lookup, hba]
  have h4 : (⟨[("a", ⟨7, 0, 100⟩)], 1, 1, 0⟩ : MemoryCache Nat).get 1 "c"
      = (none, ⟨[("a", ⟨7, 0, 100⟩)], 1, 2, 0⟩) := by
    simp [MemoryCache.get, List.lookup, hca]
  rw [h1, h2, h3, h4]
  have hfin : ((⟨[("a", ⟨7, 0, 100⟩)], 1, 2, 0⟩ : MemoryCache Nat).get_stats).hit_rate
      = pyRoundFloat2 (floatDivInt 1 3) := by
    simp only [MemoryCache.get_stats]
    norm_num
  rw [hfin, pyRound2_of_third]
  simp only [MemoryCache.get_stats]
  norm_num

/-- Claim C7 (amended): `get_stats` reports `total_requests = hits +
misses`, and `hit_rate` equal to the Python float pipeline
`round(hits / total_requests, 2)`: the correctly rounded binary64
quotient, rounded to two decimal places on the float's exact value (ties
to even) and re-rounded to binary64 — in particular always within `1/100`
of the exact rational quotient — and `0.0` when `total_requests` is zero;
at the decimal tie points the pipeline follows the float, reporting `0.01`
both for 1 hit in 200 and for 3 hits in 200. -/
theorem C7_stats_hit_rate (c : MemoryCache α) :
    ((c.get_stats).total_requests = c.hits + c.misses)
    ∧ (c.hits + c.misses = 0 → (c.get_stats).hit_rate = 0)
    ∧ (0 < c.hits + c.misses →
        (c.get_stats).hit_rate = pyRoundFloat2 (floatDivInt c.hits (c.hits + c.misses))
        ∧ |(c.get_stats).hit_rate - (c.hits : ℚ) / ((c.hits + c.misses : Nat) : ℚ)| ≤ 1 / 100)
    ∧ roundTo2 (floatDivInt 1 200) = 1 / 100
    ∧ roundTo2 (floatDivInt 3 200) = 1 / 100 := by
  refine ⟨rfl, ?_, ?_, ?_, ?_⟩
  · intro h
    simp only [MemoryCache.get_stats, h]
    norm_num [pyRoundFloat2, roundTo2, roundHalfEven, roundFloat64]
  · intro h
    constructor
    · simp only [MemoryCache.get_stats]
      rw [if_pos h]
    · simp only [MemoryCache.get_stats]
      rw [if_pos h]
      exact py_pipeline_close c.hits (c.hits + c.misses) h (by omega)
  · rw [floatDiv_1_200_eq]
    norm_num [roundTo2, roundHalfEven]
  · rw [floatDiv_3_200_eq]
    norm_num [roundTo2, roundHalfEven]

/-- Witness for C7 (amended): with one hit and two misses the reported rate
is the float pipeline value for `1/3`, within `1/100` of the exact
quotient. -/
theorem C7_witness :
    ((MemoryCache.mk ([] : List (String × CacheEntry Nat)) 1 2 0).get_stats).hit_rate
      = pyRoundFloat2 (floatDivInt 1 3)
    ∧ |((MemoryCache.mk ([] : List (String × CacheEntry Nat)) 1 2 0).get_stats).hit_rate
        - 1 / 3| ≤ 1 / 100 := by
  have h := (C7_stats_hit_rate
    (MemoryCache.mk ([] : List (String × CacheEntry Nat)) 1 2 0)).2.2.1 (by norm_num)
  have h1 := h.1
  have h2 := h.2
  norm_num at h1 h2 ⊢
  exact ⟨h1, h2⟩

/-! ## Singleton connection pool (connection_pool.py)

`MongoConnectionPool.__new__` installs `cls._instance` on first call and
runs `_initialize(config)` only when a config was passed to that first
call; later calls return the installed instance untouched. `_initialize`
opens the client and selects the database, or raises
`MongoDBConnectionError` — note the instance slot is already set when it
runs, so a failed initialization still leaves the slot occupied. `close`
is guarded by `if self._client is not None`. The process-wide slot is the
`Option PoolInst` state; the liveness probe outcome is the `connectOk`
parameter. -/

structure PoolInst where
  client : Option Unit
  db : Option Unit
deriving DecidableEq

inductive PoolExc where
  | mongoConnectionError : PoolExc
  | runtimeError : PoolExc
deriving DecidableEq

/-- `MongoConnectionPool.__new__(cls, config)`: returns the constructed (or
existing) instance together with the updated singleton slot, or the
connection failure raised out of `_initialize`. -/
def poolNew (connectOk : Bool) (config : Option Unit) (slot : Option PoolInst) :
    Except PoolExc PoolInst × Option PoolInst :=
  match slot with
  | some inst => (.ok inst, some inst)
  | none =>
    let fresh : PoolInst := ⟨none, none⟩
    match config with
    | none => (.ok fresh, some fresh)
    | some _ =>
      if connectOk then
        let inited : PoolInst := ⟨some (), some ()⟩
        (.ok inited, some inited)
      else (.error .mongoConnectionError, some fresh)

/-- `MongoConnectionPool.get_database`: `RuntimeError` when `_db is None`. -/
def poolGetDatabase (inst : PoolInst) : Except PoolExc Unit :=
  match inst.db with
  | none => .error .runtimeError
  | some d => .ok d

/-- `MongoConnectionPool.close`: only when a client exists does it drop the
client, the database and the singleton slot. -/
def poolClose (inst : PoolInst) (slot : Option PoolInst) : PoolInst × Option PoolInst :=
  match inst.client with
  | none => (inst, slot)
  | some _ => (⟨none, none⟩, none)

/-- Claim C8: constructing the pool first with `config=None` installs an
uninitialized singleton; every later construction — with any config and any
connection outcome — returns that same uninitialized instance unchanged,
`get_database` keeps raising `RuntimeError`, and `close` is a no-op that
never clears the slot. -/
theorem C8_uninitialized_singleton_trap :
    ∀ (ck ck' : Bool) (cfg : Option Unit),
      poolNew ck none none = (.ok ⟨none, none⟩, some ⟨none, none⟩)
      ∧ poolNew ck' cfg (some ⟨none, none⟩) = (.ok ⟨none, none⟩, some ⟨none, none⟩)
      ∧ poolGetDatabase ⟨none, none⟩ = .error .runtimeError
      ∧ poolClose ⟨none, none⟩ (some ⟨none, none⟩) = (⟨none, none⟩, some ⟨none, none⟩) := by
  intro ck ck' cfg
  exact ⟨rfl, rfl, rfl, rfl⟩

/-! ## Cache keys (service.py)

Each service operation builds its key with an f-string over the resolved
integer ID and the limit (or season): `upcoming:team:{id}:{limit}`,
`upcoming:league:{id}:{limit}`, `past:team:{id}:{limit}`,
`past:league:{id}:{limit}`, `standings:league:{id}:{season}`. `CacheCall`
enumerates the five call shapes; injectivity rests on the fact that the
decimal rendering of a Python int never contains a colon. -/

lemma digitChar_ne_colon (m : Nat) : Nat.digitChar m ≠ ':' := by
  rcases Nat.lt_or_ge m 16 with h | h
  · interval_cases m <;> decide
  · have hne : ∀ k, k < 16 → m ≠ k := by omega
    simp only [Nat.digitChar, if_neg (hne 0 (by norm_num)), if_neg (hne 1 (by norm_num)), if_neg (hne 2 (by norm_num)), if_neg (hne 3 (by norm_num)), if_neg (hne 4 (by norm_num)), if_neg (hne 5 (by norm_num)), if_neg (hne 6 (by norm_num)), if_neg (hne 7 (by norm_num)), if_neg (hne 8 (by norm_num)), if_neg (hne 9 (by norm_num)), if_neg (hne 10 (by norm_num)), if_neg (hne 11 (by norm_num)), if_neg (hne 12 (by norm_num)), if_neg (hne 13 (by norm_num)), if_neg (hne 14 (by norm_num)), if_neg (hne 15 (by norm_num))]
    decide

lemma digitChar_ne_dash (m : Nat) : Nat.digitChar m ≠ '-' := by
  rcases Nat.lt_or_ge m 16 with h | h
  · interval_cases m <;> decide
  · have hne : ∀ k, k < 16 → m ≠ k := by omega
    simp only [Nat.digitChar, if_neg (hne 0 (by norm_num)), if_neg (hne 1 (by norm_num)), if_neg (hne 2 (by norm_num)), if_neg (hne 3 (by norm_num)), if_neg (hne 4 (by norm_num)), if_neg (hne 5 (by norm_num)), if_neg (hne 6 (by norm_num)), if_neg (hne 7 (by norm_num)), if_neg (hne 8 (by norm_num)), if_neg (hne 9 (by norm_num)), if_neg (hne 10 (by norm_num)), if_neg (hne 11 (by norm_num)), if_neg (hne 12 (by norm_num)), if_neg (hne 13 (by norm_num)), if_neg (hne 14 (by norm_num)), if_neg (hne 15 (by norm_num))]
    decide

lemma mem_toDigitsCore (b : Nat) :
    ∀ (f n : Nat) (acc : List Char) (c : Char),
      c ∈ Nat.toDigitsCore b f n acc → (∃ m, c = Nat.digitChar m) ∨ c ∈ acc := by
  intro f
  induction f with
  | zero => intro n acc c hc; exact Or.inr hc
  | succ f ih =>
    intro n acc c hc
    simp only [Nat.toDigitsCore] at hc
    by_cases hz : n / b = 0
    · rw [if_pos hz] at hc
      rcases List.mem_cons.mp hc with h | h
      · exact Or.inl ⟨n % b, h⟩
      · exact Or.inr h
    · rw [if_neg hz] at hc
      rcases ih (n / b) (Nat.digitChar (n % b) :: acc) c hc with h | h
      · exact Or.inl h
      · rcases List.mem_cons.mp h with h' | h'
        · exact Or.inl ⟨n % b, h'⟩
        · exact Or.inr h'

lemma toDigitsCore_append (b : Nat) :
    ∀ (f n : Nat) (acc : List Char),
      Nat.toDigitsCore b f n acc = Nat.toDigitsCore b f n [] ++ acc := by
  intro f
  induction f with
  | zero => intro n acc; rfl
  | succ f ih =>
    intro n acc
    simp only [Nat.toDigitsCore]
    by_cases hz : n / b = 0
    · rw [if_pos hz, if_pos hz]
      rfl
    · rw [if_neg hz, if_neg hz]
      rw [ih (n / b) (Nat.digitChar (n % b) :: acc), ih (n / b) [Nat.digitChar (n % b)]]
      simp

def charVal (c : Char) : Nat :=
  if c = '0' then 0 else if c = '1' then 1 else if c = '2' then 2 else
  if c = '3' then 3 else if c = '4' then 4 else if c = '5' then 5 else
  if c = '6' then 6 else if c = '7' then 7 else if c = '8' then 8 else
  if c = '9' then 9 else 100

def digitsVal (l : List Char) : Nat := l.foldl (fun a c => a * 10 + charVal c) 0

lemma digitsVal_append_singleton (l : List Char) (c : Char) :
    digitsVal (l ++ [c]) = digitsVal l * 10 + charVal c := by
  simp [digitsVal, List.foldl_append]

lemma charVal_digitChar (m : Nat) (h : m < 10) : charVal (Nat.digitChar m) = m := by
  interval_cases m <;> rfl

lemma val_toDigitsCore :
    ∀ (f n : Nat), n < f → digitsVal (Nat.toDigitsCore 10 f n []) = n := by
  intro f
  induction f with
  | zero => intro n h; exact absurd h (Nat.not_lt_zero n)
  | succ f ih =>
    intro n h
    simp only [Nat.toDigitsCore]
    by_cases hz : n / 10 = 0
    · rw [if_pos hz]
      show digitsVal [Nat.digitChar (n % 10)] = n
      simp only [digitsVal, List.foldl]
      rw [charVal_digitChar (n % 10) (by omega)]
      omega
    · rw [if_neg hz]
      have hnpos : 0 < n := by
        rcases Nat.eq_zero_or_pos n with rfl | h'
        · simp at hz
        · exact h'
      have hdiv : n / 10 < n := Nat.div_lt_self hnpos (by norm_num)
      have hlt : n / 10 < f := by omega
      rw [toDigitsCore_append 10 f (n / 10) [Nat.digitChar (n % 10)]]
      rw [digitsVal_append_singleton]
      rw [ih (n / 10) hlt]
      rw [charVal_digitChar (n % 10) (by omega)]
      omega

lemma natRepr_inj (m n : Nat) (h : Nat.repr m = Nat.repr n) : m = n := by
  have hd : (Nat.toDigits 10 m) = (Nat.toDigits 10 n) := by
    have := congrArg String.data h
    simpa [Nat.repr, List.asString] using this
  have h1 := val_toDigitsCore (m + 1) m (Nat.lt_succ_self m)
  have h2 := val_toDigitsCore (n + 1) n (Nat.lt_succ_self n)
  simp only [Nat.toDigits] at hd
  rw [hd] at h1
  rw [h2] at h1
  exact h1.symm

lemma colon_not_mem_natRepr (n : Nat) : ':' ∉ (Nat.repr n).data := by
  intro hmem
  simp only [Nat.repr, List.asString] at hmem
  rcases mem_toDigitsCore 10 (n + 1) n [] ':' hmem with ⟨m, hm⟩ | h
  · exact digitChar_ne_colon m hm.symm
  · simp at h

lemma dash_not_mem_natRepr (n : Nat) : '-' ∉ (Nat.repr n).data := by
  intro hmem
  simp only [Nat.repr, List.asString] at hmem
  rcases mem_toDigitsCore 10 (n + 1) n [] '-' hmem with ⟨m, hm⟩ | h
  · exact digitChar_ne_dash m hm.symm
  · simp at h

lemma string_data_append (s t : String) : (s ++ t).data = s.data ++ t.data := by
  cases s
  cases t
  rfl

lemma string_eq_of_data {s t : String} (h : s.data = t.data) : s = t := by
  cases s
  cases t
  exact congrArg String.mk h

lemma toString_int_ofNat (m : Nat) : toString (Int.ofNat m) = Nat.repr m := rfl

lemma toString_int_negSucc (m : Nat) :
    toString (Int.negSucc m) = "-" ++ Nat.repr (m + 1) := rfl

lemma colon_not_mem_intStr (i : Int) : ':' ∉ (toString i).data := by
  cases i with
  | ofNat m => exact colon_not_mem_natRepr m
  | negSucc m =>
    rw [toString_int_negSucc, string_data_append]
    intro hmem
    rcases List.mem_append.mp hmem with h | h
    · simp at h
    · exact colon_not_mem_natRepr (m + 1) h

lemma natRepr_ne_empty (n : Nat) : (Nat.repr n).data ≠ [] := by
  simp only [Nat.repr, List.asString, Nat.toDigits]
  by_cases hz : n / 10 = 0
  · simp [Nat.toDigitsCore, hz]
  · simp only [Nat.toDigitsCore, if_neg hz]
    rw [toDigitsCore_append]
    intro h
    exact absurd (List.append_eq_nil.mp h).2 (by simp)

lemma intStr_inj (i j : Int) (h : toString i = toString j) : i = j := by
  cases i with
  | ofNat m =>
    cases j with
    | ofNat n =>
      rw [congrArg Int.ofNat (natRepr_inj m n h)]
    | negSucc n =>
      exfalso
      rw [toString_int_ofNat, toString_int_negSucc] at h
      have hd := congrArg String.data h
      rw [string_data_append] at hd
      have : '-' ∈ (Nat.repr m).data := by
        rw [hd]
        simp
      exact dash_not_mem_natRepr m this
  | negSucc m =>
    cases j with
    | ofNat n =>
      exfalso
      rw [toString_int_negSucc, toString_int_ofNat] at h
      have hd := congrArg String.data h
      rw [string_data_append] at hd
      have : '-' ∈ (Nat.repr n).data := by
        rw [← hd]
        simp
      exact dash_not_mem_natRepr n this
    | negSucc n =>
      rw [toString_int_negSucc, toString_int_negSucc] at h
      have hd := congrArg String.data h
      rw [string_data_append, string_data_append] at hd
      have hd2 : (Nat.repr (m + 1)).data = (Nat.repr (n + 1)).data := by
        simpa using hd
      have hmn := natRepr_inj (m + 1) (n + 1) (string_eq_of_data hd2)
      have : m = n := by omega
      rw [this]

lemma seg_split :
    ∀ (a b x y : List Char), ':' ∉ a → ':' ∉ b →
      a ++ ':' :: x = b ++ ':' :: y → a = b ∧ x = y := by
  intro a
  induction a with
  | nil =>
    intro b x y ha hb h
    cases b with
    | nil => simpa using h
    | cons d bs =>
      exfalso
      simp only [List.nil_append, List.cons_append, List.cons.injEq] at h
      exact hb (h.1 ▸ List.mem_cons_self d bs)
  | cons c as ih =>
    intro b x y ha hb h
    cases b with
    | nil =>
      exfalso
      simp only [List.cons_append, List.nil_append, List.cons.injEq] at h
      exact ha (h.1.symm ▸ List.mem_cons_self c as)
    | cons d bs =>
      simp only [List.cons_append, List.cons.injEq] at h
      obtain ⟨rfl, h2⟩ := h
      have ha' : ':' ∉ as := fun hm => ha (List.mem_cons_of_mem _ hm)
      have hb' : ':' ∉ bs := fun hm => hb (List.mem_cons_of_mem _ hm)
      obtain ⟨rfl, rfl⟩ := ih bs x y ha' hb' h2
      exact ⟨rfl, rfl⟩

def keyData (s1 s2 : List Char) (i : Int) (rest : List Char) : List Char :=
  s1 ++ ':' :: (s2 ++ ':' :: ((toString i).data ++ ':' :: rest))

lemma keyData_inj (s1 s2 t1 t2 : List Char) (i j : Int) (r1 r2 : List Char)
    (hs1 : ':' ∉ s1) (hs2 : ':' ∉ s2) (ht1 : ':' ∉ t1) (ht2 : ':' ∉ t2)
    (h : keyData s1 s2 i r1 = keyData t1 t2 j r2) :
    s1 = t1 ∧ s2 = t2 ∧ i = j ∧ r1 = r2 := by
  unfold keyData at h
  obtain ⟨e1, h⟩ := seg_split s1 t1 _ _ hs1 ht1 h
  obtain ⟨e2, h⟩ := seg_split s2 t2 _ _ hs2 ht2 h
  obtain ⟨e3, h⟩ := seg_split _ _ _ _ (colon_not_mem_intStr i) (colon_not_mem_intStr j) h
  exact ⟨e1, e2, intStr_inj i j (string_eq_of_data e3), h⟩

inductive CacheCall where
  | teamUpcoming (team_id limit : Int)
  | leagueUpcoming (league_id limit : Int)
  | teamPast (team_id limit : Int)
  | leaguePast (league_id limit : Int)
  | standingsLeague (league_id : Int) (season : String)
deriving DecidableEq

def cacheKey : CacheCall → String
  | .teamUpcoming i limit => "upcoming:team:" ++ toString i ++ ":" ++ toString limit
  | .leagueUpcoming i limit => "upcoming:league:" ++ toString i ++ ":" ++ toString limit
  | .teamPast i limit => "past:team:" ++ toString i ++ ":" ++ toString limit
  | .leaguePast i limit => "past:league:" ++ toString i ++ ":" ++ toString limit
  | .standingsLeague i season => "standings:league:" ++ toString i ++ ":" ++ season

lemma key_data_shape (pre : String) (s1 s2 : List Char) (i : Int) (tail : String)
    (hpre : pre.data = s1 ++ ':' :: (s2 ++ [':'])) :
    (pre ++ toString i ++ ":" ++ tail).data = keyData s1 s2 i tail.data := by
  rw [string_data_append, string_data_append, string_data_append, hpre]
  unfold keyData
  have hc : (":" : String).data = [':'] := rfl
  rw [hc]
  simp [List.append_assoc]

lemma cacheKey_data_tu (i l : Int) :
    (cacheKey (.teamUpcoming i l)).data = keyData "upcoming".data "team".data i (toString l).data :=
  key_data_shape "upcoming:team:" _ _ i _ rfl

lemma cacheKey_data_lu (i l : Int) :
    (cacheKey (.leagueUpcoming i l)).data = keyData "upcoming".data "league".data i (toString l).data :=
  key_data_shape "upcoming:league:" _ _ i _ rfl

lemma cacheKey_data_tp (i l : Int) :
    (cacheKey (.teamPast i l)).data = keyData "past".data "team".data i (toString l).data :=
  key_data_shape "past:team:" _ _ i _ rfl

lemma cacheKey_data_lp (i l : Int) :
    (cacheKey (.leaguePast i l)).data = keyData "past".data "league".data i (toString l).data :=
  key_data_shape "past:league:" _ _ i _ rfl

lemma cacheKey_data_st (i : Int) (season : String) :
    (cacheKey (.standingsLeague i season)).data = keyData "standings".data "league".data i season.data :=
  key_data_shape "standings:league:" _ _ i _ rfl

/-- Claim C4: the five cache-key families of the service are jointly
injective — two operations produce the same key string exactly when the
operation kind, the scope, the resolved ID and the limit (or season)
all coincide. -/
theorem C4_cache_key_injective :
    ∀ a b : CacheCall, cacheKey a = cacheKey b ↔ a = b := by
  intro a b
  constructor
  · intro h
    have hd := congrArg String.data h
    cases a <;> cases b <;>
      simp only [cacheKey_data_tu, cacheKey_data_lu, cacheKey_data_tp, cacheKey_data_lp,
        cacheKey_data_st] at hd <;>
      obtain ⟨e1, e2, e3, e4⟩ := keyData_inj _ _ _ _ _ _ _ _
        (by decide) (by decide) (by decide) (by decide) hd <;>
      first
        | exact absurd e1 (by decide)
        | exact absurd e2 (by decide)
        | rw [e3, intStr_inj _ _ (string_eq_of_data e4)]
        | rw [e3, string_eq_of_data e4]
  · intro h
    rw [h]

/-- Witness for C4: the same team with limits 5 and 10 yields different
keys. -/
theorem C4_witness :
    cacheKey (.teamUpcoming 7 5) ≠ cacheKey (.teamUpcoming 7 10) := by
  intro h
  have hc := (C4_cache_key_injective (.teamUpcoming 7 5) (.teamUpcoming 7 10)).mp h
  exact absurd hc (by decide)

/-! ## MongoDB client (mongodb_client.py)

Each operation wraps its body in
`try ... except MongoDBConnectionError: raise / except Exception as e:
raise MongoDBQueryError(..., query=query)`. The body first calls
`self._get_db()` (which raises `RuntimeError` when the client was built
without a config), then constructs the filter dict `query`, then runs the
cursor and maps documents. Cursor execution and document mapping are the
`store` oracle; the filter dicts are `MatchQuery`/`StandingsQuery`. The
handler's `MongoDBQueryError(..., query=query)` reads the Python local
`query`, which is unassigned when `_get_db()` raised — reading it raises
`UnboundLocalError`. The pair returned by the body model carries that
local as its first component. -/

structure PyDateTime where
  seconds : ℚ
  year : Int
  month : Nat
deriving DecidableEq

inductive DateCond where
  | gte (t : ℚ)
  | lt (t : ℚ)
deriving DecidableEq

structure MatchQuery where
  status : String
  date : DateCond
  league_id : Option Int
  teamOr : Option Int
deriving DecidableEq

structure StandingsQuery where
  league_id : Int
  season : String
deriving DecidableEq

inductive QueryPayload where
  | matchQ (q : MatchQuery)
  | standQ (q : StandingsQuery)
deriving DecidableEq

inductive PyExc where
  | mongoConnectionError : PyExc
  | mongoQueryError (query : QueryPayload) : PyExc
  | runtimeError : PyExc
  | unboundLocalError : PyExc
  | otherExc (code : Nat) : PyExc
deriving DecidableEq

/-- The shared `except` chain: `MongoDBConnectionError` is re-raised
unchanged; any other exception triggers `raise MongoDBQueryError(...,
query=query)`, which itself raises `UnboundLocalError` when the local
`query` (first pair component) was never assigned. -/
def translateMongoExc (r : Option QueryPayload × Except PyExc (List α)) :
    Except PyExc (List α) :=
  match r.2 with
  | .ok v => .ok v
  | .error .mongoConnectionError => .error .mongoConnectionError
  | .error _ =>
    match r.1 with
    | some q => .error (.mongoQueryError q)
    | none => .error .unboundLocalError

/-- Filter built by `get_upcoming_fixtures`:
`{"status": "upcoming", "date": {"$gte": now}}` plus the optional
`league_id` equality and the optional home/away `$or`. -/
def mkUpcomingQuery (now : ℚ) (league_id team_id : Option Int) : MatchQuery :=
  { status := "upcoming", date := .gte now, league_id := league_id, teamOr := team_id }

/-- Filter built by `get_past_fixtures`:
`{"status": "finished", "date": {"$lt": now}}` plus the same options. -/
def mkPastQuery (now : ℚ) (league_id team_id : Option Int) : MatchQuery :=
  { status := "finished", date := .lt now, league_id := league_id, teamOr := team_id }

/-- `MongoDBClient.get_upcoming_fixtures`; `dbInit` is whether `_db` is
set, `store` runs `find(query).sort("date", 1).limit(limit)` and maps the
documents. -/
def MongoDBClient.getUpcomingFixtures (dbInit : Bool)
    (store : MatchQuery → Int → Int → Except PyExc (List α))
    (now : ℚ) (league_id team_id : Option Int) (limit : Int) : Except PyExc (List α) :=
  translateMongoExc
    (if dbInit then
      let query := mkUpcomingQuery now league_id team_id
      (some (.matchQ query), store query 1 limit)
    else (none, .error .runtimeError))

/-- `MongoDBClient.get_past_fixtures`; sorts descending (`-1`). -/
def MongoDBClient.getPastFixtures (dbInit : Bool)
    (store : MatchQuery → Int → Int → Except PyExc (List α))
    (now : ℚ) (league_id team_id : Option Int) (limit : Int) : Except PyExc (List α) :=
  translateMongoExc
    (if dbInit then
      let query := mkPastQuery now league_id team_id
      (some (.matchQ query), store query (-1) limit)
    else (none, .error .runtimeError))

/-- `MongoDBClient.get_standings`: its own season default
`str(datetime.now().year)` — the plain calendar year, applied only when it
receives `season=None` — then the filter `{"league_id": ..., "season": ...}`. -/
def MongoDBClient.getStandings (dbInit : Bool)
    (store : StandingsQuery → Except PyExc (List α))
    (now : PyDateTime) (league_id : Int) (season : Option String) : Except PyExc (List α) :=
  translateMongoExc
    (if dbInit then
      let season' := match season with
        | none => toString now.year
        | some s => s
      let query : StandingsQuery := ⟨league_id, season'⟩
      (some (.standQ query), store query)
    else (none, .error .runtimeError))

/-- Formalization of C6's classification: the operation returned normally,
re-raised the connection failure, or raised the query-failure condition
carrying exactly the attempted filter. -/
def queryFailureTranslated (res : Except PyExc (List α)) (q : QueryPayload) : Bool :=
  match res with
  | .ok _ => true
  | .error .mongoConnectionError => true
  | .error (.mongoQueryError q') => q' == q
  | .error _ => false

lemma translate_ok (q : QueryPayload) (r : Except PyExc (List α)) (v : List α)
    (h : r = .ok v) : translateMongoExc (some q, r) = .ok v := by
  subst h
  rfl

lemma translate_conn_iff (q : QueryPayload) (r : Except PyExc (List α)) :
    translateMongoExc (some q, r) = .error .mongoConnectionError
      ↔ r = .error .mongoConnectionError := by
  cases r with
  | ok v => simp [translateMongoExc]
  | error e => cases e <;> simp [translateMongoExc, queryFailureTranslated]

lemma translate_unexpected (q : QueryPayload) (r : Except PyExc (List α)) (e : PyExc)
    (hne : e ≠ .mongoConnectionError) (h : r = .error e) :
    translateMongoExc (some q, r) = .error (.mongoQueryError q) := by
  subst h
  cases e with
  | mongoConnectionError => exact absurd rfl hne
  | mongoQueryError q2 => rfl
  | runtimeError => rfl
  | unboundLocalError => rfl
  | otherExc n => rfl

/-- Counterexample to C6: with the database handle uninitialized (a client
constructed without a config), each of the three operations escapes with
`UnboundLocalError` — produced inside the generic handler while it builds
`MongoDBQueryError` from the unassigned local `query` — which is neither a
normal return nor one of the two named failure conditions. -/
theorem C6_counterexample :
    (MongoDBClient.getUpcomingFixtures (α := Nat) false (fun _ _ _ => .ok []) 0 none none 5
        = .error .unboundLocalError
      ∧ queryFailureTranslated
          (MongoDBClient.getUpcomingFixtures (α := Nat) false (fun _ _ _ => .ok []) 0 none none 5)
          (.matchQ (mkUpcomingQuery 0 none none)) = false)
    ∧ (MongoDBClient.getPastFixtures (α := Nat) false (fun _ _ _ => .ok []) 0 none none 5
        = .error .unboundLocalError
      ∧ queryFailureTranslated
          (MongoDBClient.getPastFixtures (α := Nat) false (fun _ _ _ => .ok []) 0 none none 5)
          (.matchQ (mkPastQuery 0 none none)) = false)
    ∧ (MongoDBClient.getStandings (α := Nat) false (fun _ => .ok []) ⟨0, 2026, 10⟩ 7 none
        = .error .unboundLocalError
      ∧ queryFailureTranslated
          (MongoDBClient.getStandings (α := Nat) false (fun _ => .ok []) ⟨0, 2026, 10⟩ 7 none)
          (.standQ ⟨7, "2026"⟩) = false) :=
  ⟨⟨rfl, rfl⟩, ⟨rfl, rfl⟩, ⟨rfl, rfl⟩⟩

/-- Claim C6 (amended): on a client whose database handle is initialized,
each of the three operations returns the store's documents on success,
re-raises `MongoDBConnectionError` exactly when the store raised it, and
translates every other exception into `MongoDBQueryError` carrying the
attempted filter — so no other exception type escapes; on an uninitialized
client all three operations instead escape with `UnboundLocalError`. -/
theorem C6_query_error_translation :
    ∀ (storeM : MatchQuery → Int → Int → Except PyExc (List α))
      (storeS : StandingsQuery → Except PyExc (List α))
      (now : ℚ) (nowS : PyDateTime) (league_id team_id : Option Int) (limit : Int)
      (lid : Int) (season : Option String),
      ((∀ v, storeM (mkUpcomingQuery now league_id team_id) 1 limit = .ok v →
          MongoDBClient.getUpcomingFixtures true storeM now league_id team_id limit = .ok v)
        ∧ (MongoDBClient.getUpcomingFixtures true storeM now league_id team_id limit
              = .error .mongoConnectionError
            ↔ storeM (mkUpcomingQuery now league_id team_id) 1 limit
              = .error .mongoConnectionError)
        ∧ (∀ e, e ≠ .mongoConnectionError →
            storeM (mkUpcomingQuery now league_id team_id) 1 limit = .error e →
            MongoDBClient.getUpcomingFixtures true storeM now league_id team_id limit
              = .error (.mongoQueryError (.matchQ (mkUpcomingQuery now league_id team_id)))))
      ∧ ((∀ v, storeM (mkPastQuery now league_id team_id) (-1) limit = .ok v →
          MongoDBClient.getPastFixtures true storeM now league_id team_id limit = .ok v)
        ∧ (MongoDBClient.getPastFixtures true storeM now league_id team_id limit
              = .error .mongoConnectionError
            ↔ storeM (mkPastQuery now league_id team_id) (-1) limit
              = .error .mongoConnectionError)
        ∧ (∀ e, e ≠ .mongoConnectionError →
            storeM (mkPastQuery now league_id team_id) (-1) limit = .error e →
            MongoDBClient.getPastFixtures true storeM now league_id team_id limit
              = .error (.mongoQueryError (.matchQ (mkPastQuery now league_id team_id)))))
      ∧ ((∀ v, storeS ⟨lid, match season with
              | none => toString nowS.year
              | some s => s⟩ = .ok v →
          MongoDBClient.getStandings true storeS nowS lid season = .ok v)
        ∧ (MongoDBClient.getStandings true storeS nowS lid season
              = .error .mongoConnectionError
            ↔ storeS ⟨lid, match season with
                | none => toString nowS.year
                | some s => s⟩ = .error .mongoConnectionError)
        ∧ (∀ e, e ≠ .mongoConnectionError →
            storeS ⟨lid, match season with
              | none => toString nowS.year
              | some s => s⟩ = .error e →
            MongoDBClient.getStandings true storeS nowS lid season
              = .error (.mongoQueryError (.standQ ⟨lid, match season with
                  | none => toString nowS.year
                  | some s => s⟩))))
      ∧ (MongoDBClient.getUpcomingFixtures false storeM now league_id team_id limit
            = .error .unboundLocalError
        ∧ MongoDBClient.getPastFixtures false storeM now league_id team_id limit
            = .error .unboundLocalError
        ∧ MongoDBClient.getStandings false storeS nowS lid season
            = .error .unboundLocalError) := by
  intro storeM storeS now nowS league_id team_id limit lid season
  refine ⟨⟨?_, translate_conn_iff _ _, ?_⟩, ⟨?_, translate_conn_iff _ _, ?_⟩,
    ⟨?_, translate_conn_iff _ _, ?_⟩, rfl, rfl, rfl⟩
  · intro v hv
    exact translate_ok _ _ v hv
  · intro e hne he
    exact translate_unexpected _ _ e hne he
  · intro v hv
    exact translate_ok _ _ v hv
  · intro e hne he
    exact translate_unexpected _ _ e hne he
  · intro v hv
    exact translate_ok _ _ v hv
  · intro e hne he
    exact translate_unexpected _ _ e hne he

/-- Witness for C6 (amended): a store that fails with a plain exception is
reported as the query-failure condition carrying the attempted filter, and
a store that succeeds passes its documents through. -/
theorem C6_witness :
    MongoDBClient.getUpcomingFixtures (α := Nat) true
        (fun _ _ _ => .error (.otherExc 0)) 0 none none 5
      = .error (.mongoQueryError (.matchQ (mkUpcomingQuery 0 none none)))
    ∧ MongoDBClient.getStandings (α := Nat) true (fun _ => .ok [4]) ⟨0, 2026, 10⟩ 7 none
      = .ok [4] := by
  have h := C6_query_error_translation (α := Nat) (fun _ _ _ => .error (.otherExc 0))
    (fun _ => .ok [4]) 0 ⟨0, 2026, 10⟩ none none 5 7 none
  exact ⟨h.1.2.2 (.otherExc 0) (by decide) rfl, h.2.2.1.1 [4] rfl⟩

/-! ## Orchestrating service (service.py)

The service owns both resolver tables, the memory cache and the configured
TTLs. Each operation follows the same script: falsy name → empty list;
unresolvable name → invalid-entity error carrying the input; otherwise
cache lookup under the operation's key, and on a miss the data-client call
(the `fetch` oracle, covering the MongoDB call plus `model_dump`
conversion) followed by a cache write with the operation's TTL. Client
exceptions propagate as `clientError`. -/

inductive SvcErr where
  | invalidTeam (msg : String) : SvcErr
  | invalidLeague (msg : String) : SvcErr
  | clientError (e : PyExc) : SvcErr
deriving DecidableEq

structure FootballInfoService (α : Type) where
  teams : List TeamEntry
  leagues : List LeagueEntry
  cache : MemoryCache (List α)
  ttlUpcoming : Int
  ttlPast : Int
  ttlStandings : Int

/-- `FootballInfoService._current_season`:
`str(now.year if now.month >= 8 else now.year - 1)`. -/
def FootballInfoService.currentSeason (now : PyDateTime) : String :=
  toString (if 8 ≤ now.month then now.year else now.year - 1)

/-- `FootballInfoService.get_team_upcoming_matches`. -/
def FootballInfoService.getTeamUpcomingMatches (svc : FootballInfoService α)
    (fetch : Int → Int → Except PyExc (List α)) (now : PyDateTime)
    (team_name : Option String) (limit : Int) :
    Except SvcErr (List α) × FootballInfoService α :=
  match team_name with
  | none => (.ok [], svc)
  | some nm =>
    if nm = "" then (.ok [], svc)
    else
      match (TeamResolver.resolve svc.teams nm none).1 with
      | none => (.error (.invalidTeam ("No se pudo resolver el equipo: " ++ nm)), svc)
      | some team_id =>
        let key := cacheKey (.teamUpcoming team_id limit)
        let res := svc.cache.get now.seconds key
        let svc1 := { svc with cache := res.2 }
        match res.1 with
        | some data => (.ok data, svc1)
        | none =>
          match fetch team_id limit with
          | .error e => (.error (.clientError e), svc1)
          | .ok result =>
            (.ok result,
              { svc1 with cache := svc1.cache.set now.seconds key result svc.ttlUpcoming })

/-- `FootballInfoService.get_league_upcoming_matches`. -/
def FootballInfoService.getLeagueUpcomingMatches (svc : FootballInfoService α)
    (fetch : Int → Int → Except PyExc (List α)) (now : PyDateTime)
    (league_name : Option String) (limit : Int) :
    Except SvcErr (List α) × FootballInfoService α :=
  match league_name with
  | none => (.ok [], svc)
  | some nm =>
    if nm = "" then (.ok [], svc)
    else
      match LeagueResolver.resolve svc.leagues nm with
      | none => (.error (.invalidLeague ("No se pudo resolver la liga: " ++ nm)), svc)
      | some league_id =>
        let key := cacheKey (.leagueUpcoming league_id limit)
        let res := svc.cache.get now.seconds key
        let svc1 := { svc with cache := res.2 }
        match res.1 with
        | some data => (.ok data, svc1)
        | none =>
          match fetch league_id limit with
          | .error e => (.error (.clientError e), svc1)
          | .ok result =>
            (.ok result,
              { svc1 with cache := svc1.cache.set now.seconds key result svc.ttlUpcoming })

/-- `FootballInfoService.get_team_match_results`. -/
def FootballInfoService.getTeamMatchResults (svc : FootballInfoService α)
    (fetch : Int → Int → Except PyExc (List α)) (now : PyDateTime)
    (team_name : Option String) (limit : Int) :
    Except SvcErr (List α) × FootballInfoService α :=
  match team_name with
  | none => (.ok [], svc)
  | some nm =>
    if nm = "" then (.ok [], svc)
    else
      match (TeamResolver.resolve svc.teams nm none).1 with
      | none => (.error (.invalidTeam ("No se pudo resolver el equipo: " ++ nm)), svc)
      | some team_id =>
        let key := cacheKey (.teamPast team_id limit)
        let res := svc.cache.get now.seconds key
        let svc1 := { svc with cache := res.2 }
        match res.1 with
        | some data => (.ok data, svc1)
        | none =>
          match fetch team_id limit with
          | .error e => (.error (.clientError e), svc1)
          | .ok result =>
            (.ok result,
              { svc1 with cache := svc1.cache.set now.seconds key result svc.ttlPast })

/-- `FootballInfoService.get_league_match_results`. -/
def FootballInfoService.getLeagueMatchResults (svc : FootballInfoService α)
    (fetch : Int → Int → Except PyExc (List α)) (now : PyDateTime)
    (league_name : Option String) (limit : Int) :
    Except SvcErr (List α) × FootballInfoService α :=
  match league_name with
  | none => (.ok [], svc)
  | some nm =>
    if nm = "" then (.ok [], svc)
    else
      match LeagueResolver.resolve svc.leagues nm with
      | none => (.error (.invalidLeague ("No se pudo resolver la liga: " ++ nm)), svc)
      | some league_id =>
        let key := cacheKey (.leaguePast league_id limit)
        let res := svc.cache.get now.seconds key
        let svc1 := { svc with cache := res.2 }
        match res.1 with
        | some data => (.ok data, svc1)
        | none =>
          match fetch league_id limit with
          | .error e => (.error (.clientError e), svc1)
          | .ok result =>
            (.ok result,
              { svc1 with cache := svc1.cache.set now.seconds key result svc.ttlPast })

/-- `FootballInfoService.get_standings`: the league name is a required
`str`; an omitted season is resolved with `_current_season()` before the
cache key is built, and that resolved string is also what the data client
receives. -/
def FootballInfoService.getStandings (svc : FootballInfoService α)
    (fetch : Int → String → Except PyExc (List α)) (now : PyDateTime)
    (league_name : String) (season : Option String) :
    Except SvcErr (List α) × FootballInfoService α :=
  if league_name = "" then (.ok [], svc)
  else
    match LeagueResolver.resolve svc.leagues league_name with
    | none => (.error (.invalidLeague ("No se pudo resolver la liga: " ++ league_name)), svc)
    | some league_id =>
      let season2 := match season with
        | none => FootballInfoService.currentSeason now
        | some s => s
      let key := cacheKey (.standingsLeague league_id season2)
      let res := svc.cache.get now.seconds key
      let svc1 := { svc with cache := res.2 }
      match res.1 with
      | some data => (.ok data, svc1)
      | none =>
        match fetch league_id season2 with
        | .error e => (.error (.clientError e), svc1)
        | .ok result =>
          (.ok result,
            { svc1 with cache := svc1.cache.set now.seconds key result svc.ttlStandings })

lemma teamUpcoming_invalid_iff (svc : FootballInfoService α)
    (fetch : Int → Int → Except PyExc (List α)) (now : PyDateTime) (limit : Int) (nm : String) :
    (FootballInfoService.getTeamUpcomingMatches svc fetch now none limit = (.ok [], svc))
    ∧ (FootballInfoService.getTeamUpcomingMatches svc fetch now (some "") limit = (.ok [], svc))
    ∧ ((FootballInfoService.getTeamUpcomingMatches svc fetch now (some nm) limit).1
          = .error (.invalidTeam ("No se pudo resolver el equipo: " ++ nm))
        ↔ (nm ≠ "" ∧ (TeamResolver.resolve svc.teams nm none).1 = none))
    ∧ (∀ m, (FootballInfoService.getTeamUpcomingMatches svc fetch now (some nm) limit).1
          = .error (.invalidTeam m)
        → m = "No se pudo resolver el equipo: " ++ nm) := by
  refine ⟨rfl, by simp [FootballInfoService.getTeamUpcomingMatches], ?_, ?_⟩
  · by_cases hnm : nm = ""
    · subst hnm
      simp [FootballInfoService.getTeamUpcomingMatches]
    · rcases hres : (TeamResolver.resolve svc.teams nm none).1 with _ | tid
      · simp [FootballInfoService.getTeamUpcomingMatches, hnm, hres]
      · rcases hc : (svc.cache.get now.seconds (cacheKey (.teamUpcoming tid limit))).1 with _ | data
        · rcases hf : fetch tid limit with e | r
          · simp [FootballInfoService.getTeamUpcomingMatches, hnm, hres, hc, hf]
          · simp [FootballInfoService.getTeamUpcomingMatches, hnm, hres, hc, hf]
        · simp [FootballInfoService.getTeamUpcomingMatches, hnm, hres, hc]
  · intro m hm
    by_cases hnm : nm = ""
    · subst hnm
      simp [FootballInfoService.getTeamUpcomingMatches] at hm
    · rcases hres : (TeamResolver.resolve svc.teams nm none).1 with _ | tid
      · simp [FootballInfoService.getTeamUpcomingMatches, hnm, hres] at hm
        exact hm.symm
      · rcases hc : (svc.cache.get now.seconds (cacheKey (.teamUpcoming tid limit))).1 with _ | data
        · rcases hf : fetch tid limit with e | r
          · simp [FootballInfoService.getTeamUpcomingMatches, hnm, hres, hc, hf] at hm
          · simp [FootballInfoService.getTeamUpcomingMatches, hnm, hres, hc, hf] at hm
        · simp [FootballInfoService.getTeamUpcomingMatches, hnm, hres, hc] at hm

lemma leagueUpcoming_invalid_iff (svc : FootballInfoService α)
    (fetch : Int → Int → Except PyExc (List α)) (now : PyDateTime) (limit : Int) (nm : String) :
    (FootballInfoService.getLeagueUpcomingMatches svc fetch now none limit = (.ok [], svc))
    ∧ (FootballInfoService.getLeagueUpcomingMatches svc fetch now (some "") limit = (.ok [], svc))
    ∧ ((FootballInfoService.getLeagueUpcomingMatches svc fetch now (some nm) limit).1
          = .error (.invalidLeague ("No se pudo resolver la liga: " ++ nm))
        ↔ (nm ≠ "" ∧ LeagueResolver.resolve svc.leagues nm = none))
    ∧ (∀ m, (FootballInfoService.getLeagueUpcomingMatches svc fetch now (some nm) limit).1
          = .error (.invalidLeague m)
        → m = "No se pudo resolver la liga: " ++ nm) := by
  refine ⟨rfl, by simp [FootballInfoService.getLeagueUpcomingMatches], ?_, ?_⟩
  · by_cases hnm : nm = ""
    · subst hnm
      simp [FootballInfoService.getLeagueUpcomingMatches]
    · rcases hres : LeagueResolver.resolve svc.leagues nm with _ | tid
      · simp [FootballInfoService.getLeagueUpcomingMatches, hnm, hres]
      · rcases hc : (svc.cache.get now.seconds (cacheKey (.leagueUpcoming tid limit))).1 with _ | data
        · rcases hf : fetch tid limit with e | r
          · simp [FootballInfoService.getLeagueUpcomingMatches, hnm, hres, hc, hf]
          · simp [FootballInfoService.getLeagueUpcomingMatches, hnm, hres, hc, hf]
        · simp [FootballInfoService.getLeagueUpcomingMatches, hnm, hres, hc]
  · intro m hm
    by_cases hnm : nm = ""
    · subst hnm
      simp [FootballInfoService.getLeagueUpcomingMatches] at hm
    · rcases hres : LeagueResolver.resolve svc.leagues nm with _ | tid
      · simp [FootballInfoService.getLeagueUpcomingMatches, hnm, hres] at hm
        exact hm.symm
      · rcases hc : (svc.cache.get now.seconds (cacheKey (.leagueUpcoming tid limit))).1 with _ | data
        · rcases hf : fetch tid limit with e | r
          · simp [FootballInfoService.getLeagueUpcomingMatches, hnm, hres, hc, hf] at hm
          · simp [FootballInfoService.getLeagueUpcomingMatches, hnm, hres, hc, hf] at hm
        · simp [FootballInfoService.getLeagueUpcomingMatches, hnm, hres, hc] at hm

lemma teamPast_invalid_iff (svc : FootballInfoService α)
    (fetch : Int → Int → Except PyExc (List α)) (now : PyDateTime) (limit : Int) (nm : String) :
    (FootballInfoService.getTeamMatchResults svc fetch now none limit = (.ok [], svc))
    ∧ (FootballInfoService.getTeamMatchResults svc fetch now (some "") limit = (.ok [], svc))
    ∧ ((FootballInfoService.getTeamMatchResults svc fetch now (some nm) limit).1
          = .error (.invalidTeam ("No se pudo resolver el equipo: " ++ nm))
        ↔ (nm ≠ "" ∧ (TeamResolver.resolve svc.teams nm none).1 = none))
    ∧ (∀ m, (FootballInfoService.getTeamMatchResults svc fetch now (some nm) limit).1
          = .error (.invalidTeam m)
        → m = "No se pudo resolver el equipo: " ++ nm) := by
  refine ⟨rfl, by simp [FootballInfoService.getTeamMatchResults], ?_, ?_⟩
  · by_cases hnm : nm = ""
    · subst hnm
      simp [FootballInfoService.getTeamMatchResults]
    · rcases hres : (TeamResolver.resolve svc.teams nm none).1 with _ | tid
      · simp [FootballInfoService.getTeamMatchResults, hnm, hres]
      · rcases hc : (svc.cache.get now.seconds (cacheKey (.teamPast tid limit))).1 with _ | data
        · rcases hf : fetch tid limit with e | r
          · simp [FootballInfoService.getTeamMatchResults, hnm, hres, hc, hf]
          · simp [FootballInfoService.getTeamMatchResults, hnm, hres, hc, hf]
        · simp [FootballInfoService.getTeamMatchResults, hnm, hres, hc]
  · intro m hm
    by_cases hnm : nm = ""
    · subst hnm
      simp [FootballInfoService.getTeamMatchResults] at hm
    · rcases hres : (TeamResolver.resolve svc.teams nm none).1 with _ | tid
      · simp [FootballInfoService.getTeamMatchResults, hnm, hres] at hm
        exact hm.symm
      · rcases hc : (svc.cache.get now.seconds (cacheKey (.teamPast tid limit))).1 with _ | data
        · rcases hf : fetch tid limit with e | r
          · simp [FootballInfoService.getTeamMatchResults, hnm, hres, hc, hf] at hm
          · simp [FootballInfoService.getTeamMatchResults, hnm, hres, hc, hf] at hm
        · simp [FootballInfoService.getTeamMatchResults, hnm, hres, hc] at hm

lemma leaguePast_invalid_iff (svc : FootballInfoService α)
    (fetch : Int → Int → Except PyExc (List α)) (now : PyDateTime) (limit : Int) (nm : String) :
    (FootballInfoService.getLeagueMatchResults svc fetch now none limit = (.ok [], svc))
    ∧ (FootballInfoService.getLeagueMatchResults svc fetch now (some "") limit = (.ok [], svc))
    ∧ ((FootballInfoService.getLeagueMatchResults svc fetch now (some nm) limit).1
          = .error (.invalidLeague ("No se pudo resolver la liga: " ++ nm))
        ↔ (nm ≠ "" ∧ LeagueResolver.resolve svc.leagues nm = none))
    ∧ (∀ m, (FootballInfoService.getLeagueMatchResults svc fetch now (some nm) limit).1
          = .error (.invalidLeague m)
        → m = "No se pudo resolver la liga: " ++ nm) := by
  refine ⟨rfl, by simp [FootballInfoService.getLeagueMatchResults], ?_, ?_⟩
  · by_cases hnm : nm = ""
    · subst hnm
      simp [FootballInfoService.getLeagueMatchResults]
    · rcases hres : LeagueResolver.resolve svc.leagues nm with _ | tid
      · simp [FootballInfoService.getLeagueMatchResults, hnm, hres]
      · rcases hc : (svc.cache.get now.seconds (cacheKey (.leaguePast tid limit))).1 with _ | data
        · rcases hf : fetch tid limit with e | r
          · simp [FootballInfoService.getLeagueMatchResults, hnm, hres, hc, hf]
          · simp [FootballInfoService.getLeagueMatchResults, hnm, hres, hc, hf]
        · simp [FootballInfoService.getLeagueMatchResults, hnm, hres, hc]
  · intro m hm
    by_cases hnm : nm = ""
    · subst hnm
      simp [FootballInfoService.getLeagueMatchResults] at hm
    · rcases hres : LeagueResolver.resolve svc.leagues nm with _ | tid
      · simp [FootballInfoService.getLeagueMatchResults, hnm, hres] at hm
        exact hm.symm
      · rcases hc : (svc.cache.get now.seconds (cacheKey (.leaguePast tid limit))).1 with _ | data
        · rcases hf : fetch tid limit with e | r
          · simp [FootballInfoService.getLeagueMatchResults, hnm, hres, hc, hf] at hm
          · simp [FootballInfoService.getLeagueMatchResults, hnm, hres, hc, hf] at hm
        · simp [FootballInfoService.getLeagueMatchResults, hnm, hres, hc] at hm

lemma standings_invalid_iff (svc : FootballInfoService α)
    (fetch : Int → String → Except PyExc (List α)) (now : PyDateTime)
    (season : Option String) (nm : String) :
    (FootballInfoService.getStandings svc fetch now "" season = (.ok [], svc))
    ∧ ((FootballInfoService.getStandings svc fetch now nm season).1
          = .error (.invalidLeague ("No se pudo resolver la liga: " ++ nm))
        ↔ (nm ≠ "" ∧ LeagueResolver.resolve svc.leagues nm = none))
    ∧ (∀ m, (FootballInfoService.getStandings svc fetch now nm season).1
          = .error (.invalidLeague m)
        → m = "No se pudo resolver la liga: " ++ nm) := by
  have hmain : ∀ (sea2 : String),
      ((FootballInfoService.getStandings svc fetch now nm (some sea2)).1
          = .error (.invalidLeague ("No se pudo resolver la liga: " ++ nm))
        ↔ (nm ≠ "" ∧ LeagueResolver.resolve svc.leagues nm = none))
      ∧ (∀ m, (FootballInfoService.getStandings svc fetch now nm (some sea2)).1
            = .error (.invalidLeague m)
          → m = "No se pudo resolver la liga: " ++ nm) := by
    intro sea2
    constructor
    · by_cases hnm : nm = ""
      · subst hnm
        simp [FootballInfoService.getStandings]
      · rcases hres : LeagueResolver.resolve svc.leagues nm with _ | lid
        · simp [FootballInfoService.getStandings, hnm, hres]
        · rcases hc : (svc.cache.get now.seconds (cacheKey (.standingsLeague lid sea2))).1 with _ | data
          · rcases hf : fetch lid sea2 with e | r
            · simp [FootballInfoService.getStandings, hnm, hres, hc, hf]
            · simp [FootballInfoService.getStandings, hnm, hres, hc, hf]
          · simp [FootballInfoService.getStandings, hnm, hres, hc]
    · intro m hm
      by_cases hnm : nm = ""
      · subst hnm
        simp [FootballInfoService.getStandings] at hm
      · rcases hres : LeagueResolver.resolve svc.leagues nm with _ | lid
        · simp [FootballInfoService.getStandings, hnm, hres] at hm
          exact hm.symm
        · rcases hc : (svc.cache.get now.seconds (cacheKey (.standingsLeague lid sea2))).1 with _ | data
          · rcases hf : fetch lid sea2 with e | r
            · simp [FootballInfoService.getStandings, hnm, hres, hc, hf] at hm
            · simp [FootballInfoService.getStandings, hnm, hres, hc, hf] at hm
          · simp [FootballInfoService.getStandings, hnm, hres, hc] at hm
  have hswitch : FootballInfoService.getStandings svc fetch now nm season
      = FootballInfoService.getStandings svc fetch now nm
          (some (match season with
            | none => FootballInfoService.currentSeason now
            | some s => s)) := by
    cases season <;> rfl
  refine ⟨rfl, ?_, ?_⟩
  · rw [hswitch]
    exact (hmain _).1
  · rw [hswitch]
    exact (hmain _).2

/-- Claim C3: each of the five service operations raises the invalid-entity
error carrying the offending input exactly when a non-empty name fails to
resolve; a missing (`None`) or empty name yields an empty list with the
service untouched, and a non-empty unresolvable name never yields an empty
list. -/
theorem C3_invalid_entity_iff (svc : FootballInfoService α)
    (fetchU fetchP : Int → Int → Except PyExc (List α))
    (fetchS : Int → String → Except PyExc (List α))
    (now : PyDateTime) (limit : Int) (season : Option String) (nm : String) :
    ((FootballInfoService.getTeamUpcomingMatches svc fetchU now none limit = (.ok [], svc))
      ∧ (FootballInfoService.getTeamUpcomingMatches svc fetchU now (some "") limit = (.ok [], svc))
      ∧ ((FootballInfoService.getTeamUpcomingMatches svc fetchU now (some nm) limit).1
            = .error (.invalidTeam ("No se pudo resolver el equipo: " ++ nm))
          ↔ (nm ≠ "" ∧ (TeamResolver.resolve svc.teams nm none).1 = none))
      ∧ (∀ m, (FootballInfoService.getTeamUpcomingMatches svc fetchU now (some nm) limit).1
            = .error (.invalidTeam m) → m = "No se pudo resolver el equipo: " ++ nm))
    ∧ ((FootballInfoService.getLeagueUpcomingMatches svc fetchU now none limit = (.ok [], svc))
      ∧ (FootballInfoService.getLeagueUpcomingMatches svc fetchU now (some "") limit = (.ok [], svc))
      ∧ ((FootballInfoService.getLeagueUpcomingMatches svc fetchU now (some nm) limit).1
            = .error (.invalidLeague ("No se pudo resolver la liga: " ++ nm))
          ↔ (nm ≠ "" ∧ LeagueResolver.resolve svc.leagues nm = none))
      ∧ (∀ m, (FootballInfoService.getLeagueUpcomingMatches svc fetchU now (some nm) limit).1
            = .error (.invalidLeague m) → m = "No se pudo resolver la liga: " ++ nm))
    ∧ ((FootballInfoService.getTeamMatchResults svc fetchP now none limit = (.ok [], svc))
      ∧ (FootballInfoService.getTeamMatchResults svc fetchP now (some "") limit = (.ok [], svc))
      ∧ ((FootballInfoService.getTeamMatchResults svc fetchP now (some nm) limit).1
            = .error (.invalidTeam ("No se pudo resolver el equipo: " ++ nm))
          ↔ (nm ≠ "" ∧ (TeamResolver.resolve svc.teams nm none).1 = none))
      ∧ (∀ m, (FootballInfoService.getTeamMatchResults svc fetchP now (some nm) limit).1
            = .error (.invalidTeam m) → m = "No se pudo resolver el equipo: " ++ nm))
    ∧ ((FootballInfoService.getLeagueMatchResults svc fetchP now none limit = (.ok [], svc))
      ∧ (FootballInfoService.getLeagueMatchResults svc fetchP now (some "") limit = (.ok [], svc))
      ∧ ((FootballInfoService.getLeagueMatchResults svc fetchP now (some nm) limit).1
            = .error (.invalidLeague ("No se pudo resolver la liga: " ++ nm))
          ↔ (nm ≠ "" ∧ LeagueResolver.resolve svc.leagues nm = none))
      ∧ (∀ m, (FootballInfoService.getLeagueMatchResults svc fetchP now (some nm) limit).1
            = .error (.invalidLeague m) → m = "No se pudo resolver la liga: " ++ nm))
    ∧ ((FootballInfoService.getStandings svc fetchS now "" season = (.ok [], svc))
      ∧ ((FootballInfoService.getStandings svc fetchS now nm season).1
            = .error (.invalidLeague ("No se pudo resolver la liga: " ++ nm))
          ↔ (nm ≠ "" ∧ LeagueResolver.resolve svc.leagues nm = none))
      ∧ (∀ m, (FootballInfoService.getStandings svc fetchS now nm season).1
            = .error (.invalidLeague m) → m = "No se pudo resolver la liga: " ++ nm)) :=
  ⟨teamUpcoming_invalid_iff svc fetchU now limit nm,
   leagueUpcoming_invalid_iff svc fetchU now limit nm,
   teamPast_invalid_iff svc fetchP now limit nm,
   leaguePast_invalid_iff svc fetchP now limit nm,
   standings_invalid_iff svc fetchS now season nm⟩

/-- Witness for C3: against a one-team table, an unknown team name raises
the invalid-team error carrying the input. -/
theorem C3_witness :
    (FootballInfoService.getTeamUpcomingMatches (α := Nat)
        ⟨[⟨"Real Madrid", 541⟩], [], MemoryCache.init, 60, 60, 60⟩
        (fun _ _ => .ok []) ⟨0, 2026, 10⟩ (some "Nonexistent FC") 5).1
      = .error (.invalidTeam "No se pudo resolver el equipo: Nonexistent FC") := by
  have h := C3_invalid_entity_iff (α := Nat)
    ⟨[⟨"Real Madrid", 541⟩], [], MemoryCache.init, 60, 60, 60⟩
    (fun _ _ => .ok []) (fun _ _ => .ok []) (fun _ _ => .ok [])
    ⟨0, 2026, 10⟩ 5 none "Nonexistent FC"
  exact h.1.2.2.1.mpr ⟨by decide, by decide⟩

/-- Claim C5: with the season omitted, the service selects
`str(year)` when the month is at least August and `str(year - 1)`
otherwise, and behaves exactly as if that string had been passed
explicitly — so the same season reaches the cache key and the data-client
call; the MongoDB client's own default is the bare calendar year with no
August rollover, used only when it itself receives `season=None`. -/
theorem C5_season_defaults (svc : FootballInfoService α)
    (fetch : Int → String → Except PyExc (List α))
    (storeS : StandingsQuery → Except PyExc (List α))
    (now : PyDateTime) (league_name : String) (dbInit : Bool) (lid : Int)
    (y : Int) (mo : Nat) (s : ℚ) :
    FootballInfoService.currentSeason ⟨s, y, mo⟩
        = toString (if 8 ≤ mo then y else y - 1)
    ∧ (8 ≤ mo → FootballInfoService.currentSeason ⟨s, y, mo⟩ = toString y)
    ∧ (mo < 8 → FootballInfoService.currentSeason ⟨s, y, mo⟩ = toString (y - 1))
    ∧ FootballInfoService.getStandings svc fetch now league_name none
        = FootballInfoService.getStandings svc fetch now league_name
            (some (FootballInfoService.currentSeason now))
    ∧ MongoDBClient.getStandings dbInit storeS now lid none
        = MongoDBClient.getStandings dbInit storeS now lid (some (toString now.year)) := by
  refine ⟨rfl, ?_, ?_, rfl, rfl⟩
  · intro h
    simp [FootballInfoService.currentSeason, h]
  · intro h
    have : ¬ 8 ≤ mo := by omega
    simp [FootballInfoService.currentSeason, this]

/-- Witness for C5: in October 2026 the service picks "2026", in March 2026
it picks "2025", while the client default is the calendar year in both. -/
theorem C5_witness :
    FootballInfoService.currentSeason ⟨0, 2026, 10⟩ = "2026"
    ∧ FootballInfoService.currentSeason ⟨0, 2026, 3⟩ = "2025" := by
  have h1 := C5_season_defaults (α := Nat)
    ⟨[], [], MemoryCache.init, 60, 60, 60⟩ (fun _ _ => .ok []) (fun _ => .ok [])
    ⟨0, 2026, 10⟩ "" true 0 2026 10 0
  have h2 := C5_season_defaults (α := Nat)
    ⟨[], [], MemoryCache.init, 60, 60, 60⟩ (fun _ _ => .ok []) (fun _ => .ok [])
    ⟨0, 2026, 3⟩ "" true 0 2026 3 0
  exact ⟨h1.2.1 (by norm_num), h2.2.2.1 (by norm_num)⟩
